import Mathlib

/-!
Shallow embedding of the CHIP-8 emulator core from `chip8-emulator-rs`
(`src/chip8_emulator/{cpu,state,quirks,error}.rs` and
`src/assembler/{assembler,encoding}.rs`), together with theorems settling
the frozen claims about the natural-language specification.

Conventions of the embedding:
* Rust `u8`/`u16`/`usize` values are `Nat`, with wrapping arithmetic made
  explicit (`% 256`, `&&& 0x0FFF`, `% 65536`, ...) exactly where the Rust
  source wraps or masks.  Well-typedness facts that Rust gets from its
  machine-integer types (every register < 256, ...) become the explicit
  state invariant `StateInv`.
* Fixed-size Rust arrays (`memory`, `registers`, `screen_buffer`,
  `key_inputs`) are total functions `Nat → Nat`; an index proved in range
  by a source-level guard is read directly, while the three spots where a
  Rust index expression can actually leave the array (`FX33`, `FX55`,
  `FX65`) get an explicit out-of-bounds branch, surfaced as the
  `RunResult.panic` outcome (a Rust panic aborts the process, so no
  post-state is modelled for it).
* `Result<(), Chip8Error>` together with the `&mut` state becomes
  `RunResult` (final state on success, error value on failure).  Partial
  mutations that the Rust code leaves behind when it returns `Err` are not
  observable in any claim and are not modelled.
* The PRNG used by opcode `CXKK` (`rand::random::<u8>()`) is an external
  effect; it is passed in as an explicit oracle argument `rand`.
* `rom_path : Option<PathBuf>` is filesystem-only state never touched by
  the interpreter and is omitted from the state record.
-/

/-- Pointwise function update, the embedding of a Rust array store
`a[i] = v`. -/
def updf (f : Nat → Nat) (i v : Nat) : Nat → Nat :=
  fun j => if j = i then v else f j

/-- `u8::wrapping_sub` on values of the `u8` domain (`a, b < 256`). -/
def u8_sub (a b : Nat) : Nat := (a + 256 - b) % 256

/-- Modelled from the spec: `config.rs` is not among the provided source
files; sizes are fixed by spec §3 (`memory`: 4096 bytes, 64×32 screen,
16 registers, 16 keys, `pc = 0x200` at reset). -/
def MEMORY_SIZE : Nat := 4096

/-- Modelled from the spec (§3): screen width in pixels. -/
def SCREEN_WIDTH : Nat := 64

/-- Modelled from the spec (§3): screen height in pixels. -/
def SCREEN_HEIGHT : Nat := 32

/-- Modelled from the spec (§3): ROMs load and execution starts at 0x200. -/
def PROGRAM_START : Nat := 0x200

/-- Modelled from the spec (§3, Font): the canonical 16×5-byte hex font
(the identical byte table appears in `src/chip8.rs`); `config.rs` itself
is not among the provided source files. -/
def FONT_BYTES : List Nat :=
  [0xF0, 0x90, 0x90, 0x90, 0xF0,
   0x20, 0x60, 0x20, 0x20, 0x70,
   0xF0, 0x10, 0xF0, 0x80, 0xF0,
   0xF0, 0x10, 0xF0, 0x10, 0xF0,
   0x90, 0x90, 0xF0, 0x10, 0x10,
   0xF0, 0x80, 0xF0, 0x10, 0xF0,
   0xF0, 0x80, 0xF0, 0x90, 0xF0,
   0xF0, 0x10, 0x20, 0x40, 0x40,
   0xF0, 0x90, 0xF0, 0x90, 0xF0,
   0xF0, 0x90, 0xF0, 0x10, 0xF0,
   0xF0, 0x90, 0xF0, 0x90, 0x90,
   0xE0, 0x90, 0xE0, 0x90, 0xE0,
   0xF0, 0x80, 0x80, 0x80, 0xF0,
   0xE0, 0x90, 0x90, 0x90, 0xE0,
   0xF0, 0x80, 0xF0, 0x80, 0xF0,
   0xF0, 0x80, 0xF0, 0x80, 0x80]

/-- `Chip8Quirks` (src/chip8_emulator/quirks.rs). -/
structure Chip8Quirks where
  shift_uses_vy : Bool
  load_store_increment_i : Bool
  jump_with_vx : Bool
  draw_wrap : Bool
deriving DecidableEq

/-- `ORIGINAL_QUIRKS` (src/chip8_emulator/quirks.rs). -/
def ORIGINAL_QUIRKS : Chip8Quirks :=
  { shift_uses_vy := true
    load_store_increment_i := true
    jump_with_vx := false
    draw_wrap := false }

/-- `MODERN_QUIRKS` (src/chip8_emulator/quirks.rs). -/
def MODERN_QUIRKS : Chip8Quirks :=
  { shift_uses_vy := false
    load_store_increment_i := false
    jump_with_vx := true
    draw_wrap := true }

/-- `Chip8Error` (src/chip8_emulator/error.rs).  The `Io` variant carries a
`std::io::Error` and arises only from filesystem loading, which is outside
the embedded core; it is represented without its payload. -/
inductive Chip8Error where
  | Io : Chip8Error
  | RomTooLarge (size max : Nat) : Chip8Error
  | ProgramCounterOutOfBounds (pc : Nat) : Chip8Error
  | InvalidOpcode (opcode : Nat) : Chip8Error
  | StackUnderflow : Chip8Error
  | InvalidArgument : Chip8Error
deriving DecidableEq

/-- `EmulatorState` (src/chip8_emulator/state.rs), minus `rom_path`
(filesystem-only, never read or written by the interpreter). -/
@[ext] structure EmulatorState where
  memory : Nat → Nat
  registers : Nat → Nat
  stack : List Nat
  key_inputs : Nat → Nat
  screen_buffer : Nat → Nat
  pc : Nat
  index : Nat
  delay_timer : Nat
  sound_timer : Nat
  should_draw : Bool
  exited : Bool
  op : Nat

/-- Outcome of running one instruction: the Rust `Result<(), Chip8Error>`
together with the final value of the `&mut` state, plus an explicit
`panic` outcome for a Rust index-out-of-bounds abort. -/
inductive RunResult where
  | ok (s : EmulatorState) : RunResult
  | err (e : Chip8Error) : RunResult
  | panic : RunResult

/-- `x_register_index` (cpu.rs). -/
def x_register_index (opcode : Nat) : Nat := (opcode &&& 0x0F00) >>> 8

/-- `y_register_index` (cpu.rs). -/
def y_register_index (opcode : Nat) : Nat := (opcode &&& 0x00F0) >>> 4

/-- `address_nnn` (cpu.rs). -/
def address_nnn (opcode : Nat) : Nat := opcode &&& 0x0FFF

/-- `byte_nn` (cpu.rs). -/
def byte_nn (opcode : Nat) : Nat := opcode &&& 0x00FF

/-- `nibble_n` (cpu.rs). -/
def nibble_n (opcode : Nat) : Nat := opcode &&& 0x000F

/-- `clear_display` (state.rs). -/
def clear_display (s : EmulatorState) : EmulatorState :=
  { s with screen_buffer := fun _ => 0, should_draw := true }

/-- The iterator chain of `first_pressed_key` (state.rs):
`key_inputs.iter().position(|pressed| *pressed == 1)`. -/
def firstPressedAux (s : EmulatorState) : List Nat → Option Nat
  | [] => none
  | i :: rest => if s.key_inputs i = 1 then some i else firstPressedAux s rest

/-- `first_pressed_key` (state.rs): index of the first key whose value
is 1, over the 16 keys. -/
def first_pressed_key (s : EmulatorState) : Option Nat :=
  firstPressedAux s (List.range 16)

/-- `set_key_state` (state.rs). -/
def set_key_state (s : EmulatorState) (key_index : Nat) (is_pressed : Bool) :
    EmulatorState :=
  if key_index ≥ 16 then s
  else { s with key_inputs := updf s.key_inputs key_index (if is_pressed then 1 else 0) }

/-- `handle_family_0` (cpu.rs). -/
def handle_family_0 (s : EmulatorState) (opcode : Nat) : RunResult :=
  if opcode = 0x00E0 then .ok (clear_display s)
  else if opcode = 0x00EE then
    match s.stack with
    | [] => .err .StackUnderflow
    | ret :: rest => .ok { s with stack := rest, pc := ret }
  else if opcode = 0x00FD then .ok { s with exited := true }
  else .ok s

/-- `handle_opcode_5xy0_skip_eq_register` (cpu.rs). -/
def handle_opcode_5xy0_skip_eq_register (s : EmulatorState) (opcode : Nat) :
    RunResult :=
  if nibble_n opcode ≠ 0 then .err (.InvalidOpcode opcode)
  else if s.registers (x_register_index opcode) = s.registers (y_register_index opcode) then
    .ok { s with pc := s.pc + 2 }
  else .ok s

/-- `handle_family_8` (cpu.rs).  `u8` arithmetic is `Nat` arithmetic with
the wrap made explicit (`% 256`); `overflowing_add`'s carry is the test
`256 ≤ a + b`. -/
def handle_family_8 (s : EmulatorState) (opcode : Nat) (quirks : Chip8Quirks) :
    RunResult :=
  let x_reg := x_register_index opcode
  let y_reg := y_register_index opcode
  let n := nibble_n opcode
  if n = 0x0 then
    .ok { s with registers := updf s.registers x_reg (s.registers y_reg) }
  else if n = 0x1 then
    .ok { s with registers := updf s.registers x_reg (s.registers x_reg ||| s.registers y_reg) }
  else if n = 0x2 then
    .ok { s with registers := updf s.registers x_reg (s.registers x_reg &&& s.registers y_reg) }
  else if n = 0x3 then
    .ok { s with registers := updf s.registers x_reg (s.registers x_reg ^^^ s.registers y_reg) }
  else if n = 0x4 then
    let result := (s.registers x_reg + s.registers y_reg) % 256
    let carry := if 256 ≤ s.registers x_reg + s.registers y_reg then 1 else 0
    let r1 := updf s.registers 0xF carry
    .ok { s with registers := updf r1 x_reg result }
  else if n = 0x5 then
    let r1 := updf s.registers 0xF
      (if s.registers y_reg ≤ s.registers x_reg then 1 else 0)
    .ok { s with registers := updf r1 x_reg (u8_sub (r1 x_reg) (r1 y_reg)) }
  else if n = 0x6 then
    let source := if quirks.shift_uses_vy then y_reg else x_reg
    let value := s.registers source
    let r1 := updf s.registers 0xF (value &&& 0x1)
    .ok { s with registers := updf r1 x_reg (value >>> 1) }
  else if n = 0x7 then
    let r1 := updf s.registers 0xF
      (if s.registers x_reg ≤ s.registers y_reg then 1 else 0)
    .ok { s with registers := updf r1 x_reg (u8_sub (r1 y_reg) (r1 x_reg)) }
  else if n = 0xE then
    let source := if quirks.shift_uses_vy then y_reg else x_reg
    let value := s.registers source
    let r1 := updf s.registers 0xF ((value &&& 0x80) >>> 7)
    .ok { s with registers := updf r1 x_reg ((value <<< 1) % 256) }
  else .err (.InvalidOpcode opcode)

/-- `handle_opcode_9xy0_skip_neq_register` (cpu.rs). -/
def handle_opcode_9xy0_skip_neq_register (s : EmulatorState) (opcode : Nat) :
    RunResult :=
  if nibble_n opcode ≠ 0 then .err (.InvalidOpcode opcode)
  else if s.registers (x_register_index opcode) ≠ s.registers (y_register_index opcode) then
    .ok { s with pc := s.pc + 2 }
  else .ok s

/-- Body of the inner `for bit in 0..8` loop of `handle_opcode_dxyn_draw`
(cpu.rs): test the sprite bit, latch the collision, XOR the pixel. -/
def drawBitStep (screen : Nat → Nat) (collision : Nat)
    (x_pos y_pos sprite_row bit : Nat) : (Nat → Nat) × Nat :=
  let pixel := (sprite_row >>> (7 - bit)) &&& 0x1
  if pixel = 0 then (screen, collision)
  else
    let location := x_pos + y_pos * SCREEN_WIDTH
    let collision := if screen location = 1 then 1 else collision
    (updf screen location (screen location ^^^ 1), collision)

/-- The inner `for bit in 0..8` loop of `handle_opcode_dxyn_draw` (cpu.rs),
over the remaining bit indices; `break` on a clipped pixel returns the
accumulator unchanged. -/
def drawBitsGo (wrap : Bool) (x_start y_pos sprite_row : Nat) :
    List Nat → (Nat → Nat) × Nat → (Nat → Nat) × Nat
  | [], acc => acc
  | bit :: rest, (screen, collision) =>
    if wrap then
      let x_pos := (x_start + bit) % SCREEN_WIDTH
      drawBitsGo wrap x_start y_pos sprite_row rest
        (drawBitStep screen collision x_pos y_pos sprite_row bit)
    else if SCREEN_WIDTH ≤ x_start + bit then (screen, collision)
    else
      drawBitsGo wrap x_start y_pos sprite_row rest
        (drawBitStep screen collision (x_start + bit) y_pos sprite_row bit)

/-- The outer `for row in 0..height` loop of `handle_opcode_dxyn_draw`
(cpu.rs): wrap or break on the bottom edge, bounds-check the sprite-row
address, then run the bit loop. -/
def drawRowsGo (wrap : Bool) (index : Nat) (memory : Nat → Nat)
    (x_start y_start : Nat) :
    List Nat → (Nat → Nat) × Nat → Except Chip8Error ((Nat → Nat) × Nat)
  | [], acc => .ok acc
  | row :: rest, acc =>
    if wrap then
      let y_pos := (y_start + row) % SCREEN_HEIGHT
      let sprite_address := index + row
      if MEMORY_SIZE ≤ sprite_address then
        .error (.ProgramCounterOutOfBounds sprite_address)
      else
        drawRowsGo wrap index memory x_start y_start rest
          (drawBitsGo wrap x_start y_pos (memory sprite_address) (List.range 8) acc)
    else if SCREEN_HEIGHT ≤ y_start + row then .ok acc
    else
      let y_pos := y_start + row
      let sprite_address := index + row
      if MEMORY_SIZE ≤ sprite_address then
        .error (.ProgramCounterOutOfBounds sprite_address)
      else
        drawRowsGo wrap index memory x_start y_start rest
          (drawBitsGo wrap x_start y_pos (memory sprite_address) (List.range 8) acc)

/-- `handle_opcode_dxyn_draw` (cpu.rs). -/
def handle_opcode_dxyn_draw (s : EmulatorState) (opcode : Nat)
    (quirks : Chip8Quirks) : RunResult :=
  let x_start := s.registers (x_register_index opcode) % SCREEN_WIDTH
  let y_start := s.registers (y_register_index opcode) % SCREEN_HEIGHT
  let height := nibble_n opcode
  match drawRowsGo quirks.draw_wrap s.index s.memory x_start y_start
      (List.range height) (s.screen_buffer, 0) with
  | .error e => .err e
  | .ok (screen, collision) =>
    .ok { s with
          screen_buffer := screen
          registers := updf s.registers 0xF collision
          should_draw := true }

/-- `handle_family_e` (cpu.rs). -/
def handle_family_e (s : EmulatorState) (opcode : Nat) : RunResult :=
  let key := s.registers (x_register_index opcode) &&& 0x0F
  let nn := byte_nn opcode
  if nn = 0x9E then
    if s.key_inputs key = 1 then .ok { s with pc := s.pc + 2 } else .ok s
  else if nn = 0xA1 then
    if s.key_inputs key = 0 then .ok { s with pc := s.pc + 2 } else .ok s
  else .err (.InvalidOpcode opcode)

/-- A bounds-checked memory store: the embedding of the Rust
`state.memory[addr] = v`, whose out-of-bounds branch is a panic. -/
def memWrite (mem : Nat → Nat) (addr v : Nat) : Option (Nat → Nat) :=
  if addr < MEMORY_SIZE then some (updf mem addr v) else none

/-- The `for index in 0..=x_reg` store loop of `FX55` (cpu.rs), with the
panic branch of each `state.memory[state.index + index]` made explicit. -/
def storeRegsLoop (regs : Nat → Nat) (base : Nat) :
    List Nat → (Nat → Nat) → Option (Nat → Nat)
  | [], mem => some mem
  | i :: rest, mem =>
    match memWrite mem (base + i) (regs i) with
    | none => none
    | some mem => storeRegsLoop regs base rest mem

/-- The `for index in 0..=x_reg` load loop of `FX65` (cpu.rs), with the
panic branch of each `state.memory[state.index + index]` read made
explicit. -/
def loadRegsLoop (mem : Nat → Nat) (base : Nat) :
    List Nat → (Nat → Nat) → Option (Nat → Nat)
  | [], regs => some regs
  | i :: rest, regs =>
    if base + i < MEMORY_SIZE then
      loadRegsLoop mem base rest (updf regs i (mem (base + i)))
    else none

/-- `handle_family_f` (cpu.rs). -/
def handle_family_f (s : EmulatorState) (opcode : Nat) (quirks : Chip8Quirks) :
    RunResult :=
  let x_reg := x_register_index opcode
  let nn := byte_nn opcode
  if nn = 0x07 then
    .ok { s with registers := updf s.registers x_reg s.delay_timer }
  else if nn = 0x0A then
    match first_pressed_key s with
    | some key => .ok { s with registers := updf s.registers x_reg key }
    | none => .ok { s with pc := s.pc - 2 }
  else if nn = 0x15 then
    .ok { s with delay_timer := s.registers x_reg }
  else if nn = 0x18 then
    .ok { s with sound_timer := s.registers x_reg }
  else if nn = 0x1E then
    .ok { s with index := (s.index + s.registers x_reg) &&& 0x0FFF }
  else if nn = 0x29 then
    .ok { s with index := (s.registers x_reg &&& 0x0F) * 5 }
  else if nn = 0x33 then
    let value := s.registers x_reg
    match memWrite s.memory s.index (value / 100) with
    | none => .panic
    | some m1 =>
      match memWrite m1 (s.index + 1) ((value % 100) / 10) with
      | none => .panic
      | some m2 =>
        match memWrite m2 (s.index + 2) (value % 10) with
        | none => .panic
        | some m3 => .ok { s with memory := m3 }
  else if nn = 0x55 then
    match storeRegsLoop s.registers s.index (List.range (x_reg + 1)) s.memory with
    | none => .panic
    | some mem =>
      let s := { s with memory := mem }
      if quirks.load_store_increment_i then
        .ok { s with index := (s.index + x_reg + 1) &&& 0x0FFF }
      else .ok s
  else if nn = 0x65 then
    match loadRegsLoop s.memory s.index (List.range (x_reg + 1)) s.registers with
    | none => .panic
    | some regs =>
      let s := { s with registers := regs }
      if quirks.load_store_increment_i then
        .ok { s with index := (s.index + x_reg + 1) &&& 0x0FFF }
      else .ok s
  else .err (.InvalidOpcode opcode)

/-- The `match opcode & 0xF000` dispatch of `execute_opcode` (cpu.rs),
acting on the state in which `state.op = opcode` has already been
recorded. -/
def execute_opcode_dispatch (s : EmulatorState) (opcode : Nat)
    (quirks : Chip8Quirks) (rand : Nat) : RunResult :=
  if opcode &&& 0xF000 = 0x0000 then handle_family_0 s opcode
  else if opcode &&& 0xF000 = 0x1000 then .ok { s with pc := address_nnn opcode }
  else if opcode &&& 0xF000 = 0x2000 then
    .ok { s with stack := s.pc % 65536 :: s.stack, pc := address_nnn opcode }
  else if opcode &&& 0xF000 = 0x3000 then
    if s.registers (x_register_index opcode) = byte_nn opcode then
      .ok { s with pc := s.pc + 2 }
    else .ok s
  else if opcode &&& 0xF000 = 0x4000 then
    if s.registers (x_register_index opcode) ≠ byte_nn opcode then
      .ok { s with pc := s.pc + 2 }
    else .ok s
  else if opcode &&& 0xF000 = 0x5000 then handle_opcode_5xy0_skip_eq_register s opcode
  else if opcode &&& 0xF000 = 0x6000 then
    .ok { s with registers := updf s.registers (x_register_index opcode) (byte_nn opcode) }
  else if opcode &&& 0xF000 = 0x7000 then
    .ok { s with registers := (updf s.registers (x_register_index opcode)
            ((s.registers (x_register_index opcode) + byte_nn opcode) % 256)) }
  else if opcode &&& 0xF000 = 0x8000 then handle_family_8 s opcode quirks
  else if opcode &&& 0xF000 = 0x9000 then handle_opcode_9xy0_skip_neq_register s opcode
  else if opcode &&& 0xF000 = 0xA000 then .ok { s with index := address_nnn opcode }
  else if opcode &&& 0xF000 = 0xB000 then
    .ok { s with pc := (address_nnn opcode +
            s.registers (if quirks.jump_with_vx then x_register_index opcode else 0)) &&& 0x0FFF }
  else if opcode &&& 0xF000 = 0xC000 then
    .ok { s with registers := (updf s.registers (x_register_index opcode)
            ((rand % 256) &&& byte_nn opcode)) }
  else if opcode &&& 0xF000 = 0xD000 then handle_opcode_dxyn_draw s opcode quirks
  else if opcode &&& 0xF000 = 0xE000 then handle_family_e s opcode
  else if opcode &&& 0xF000 = 0xF000 then handle_family_f s opcode quirks
  else .err (.InvalidOpcode opcode)

/-- `execute_opcode` (cpu.rs): record the opcode into `state.op`, then
dispatch on the top nibble.  `rand` is the oracle for
`rand::random::<u8>()`, consumed only by the `CXKK` arm. -/
def execute_opcode (s : EmulatorState) (opcode : Nat) (quirks : Chip8Quirks)
    (rand : Nat) : RunResult :=
  execute_opcode_dispatch { s with op := opcode } opcode quirks rand

/-- The big-endian opcode fetch expression of `execute_cycle` (cpu.rs). -/
def fetch_opcode (s : EmulatorState) : Nat :=
  (s.memory s.pc <<< 8) ||| s.memory (s.pc + 1)

/-- `execute_cycle` (cpu.rs). -/
def execute_cycle (s : EmulatorState) (quirks : Chip8Quirks) (rand : Nat) :
    RunResult :=
  if MEMORY_SIZE - 2 < s.pc then .err (.ProgramCounterOutOfBounds s.pc)
  else
    execute_opcode { s with pc := s.pc + 2 } (fetch_opcode s) quirks rand

/-- `tick_timers` (cpu.rs), without the beep callback (an external
effect); returns whether the callback would have fired. -/
def tick_timers (s : EmulatorState) : EmulatorState × Bool :=
  let s := { s with delay_timer := s.delay_timer - 1 }
  if 0 < s.sound_timer then
    ({ s with sound_timer := s.sound_timer - 1 }, true)
  else (s, false)

/-- `reset_state` followed by the pure part of `load_rom`
(state.rs): zeroed state, font at address 0, ROM bytes at `0x200`,
`pc = 0x200`.  Used to exhibit reachable states in counterexamples. -/
def initialStateWithRom (rom : List Nat) : EmulatorState :=
  { memory := fun a =>
      if a < FONT_BYTES.length then FONT_BYTES.getD a 0
      else if PROGRAM_START ≤ a ∧ a < PROGRAM_START + rom.length then
        rom.getD (a - PROGRAM_START) 0
      else 0
    registers := fun _ => 0
    stack := []
    key_inputs := fun _ => 0
    screen_buffer := fun _ => 0
    pc := PROGRAM_START
    index := 0
    delay_timer := 0
    sound_timer := 0
    should_draw := true
    exited := false
    op := 0 }

/-!
## Assembler embedding (src/assembler/assembler.rs, src/assembler/encoding.rs)

Rust `&str` values are embedded as `List Char`.  The sources index strings
by byte offsets; for the ASCII inputs the assembler grammar deals in,
byte offsets and character offsets coincide, and the embedding uses
character lists throughout.  `AssemblerError` messages are kept as fixed
descriptors: the Rust code interpolates offending values into the message
text, which no claim observes.
-/

/-- `AssemblerError` (src/assembler/error.rs): a human message plus an
optional source line number. -/
structure AssemblerError where
  message : String
  line : Option Nat
deriving DecidableEq

/-- `StatementKind` (assembler.rs). -/
inductive StatementKind where
  | DirectiveOrg
  | DirectiveDb
  | DirectiveDw
  | Instruction
deriving DecidableEq

/-- `Statement` (assembler.rs). -/
structure Statement where
  line_no : Nat
  kind : StatementKind
  operation : List Char
  arguments : List (List Char)
deriving DecidableEq

/-- The single-quote character, written via its code point. -/
def quoteChar : Char := Char.ofNat 39

/-- The double-quote character, written via its code point. -/
def dquoteChar : Char := Char.ofNat 34

/-- Rust `str::trim` (both ends; the sources only ever meet ASCII
whitespace). -/
def trimChars (l : List Char) : List Char :=
  ((l.dropWhile Char.isWhitespace).reverse.dropWhile Char.isWhitespace).reverse

/-- One step of the quote-state automaton shared by `strip_comments` and
`split_arguments` (assembler.rs): toggle on the matching quote character. -/
def quoteStep (inq : Option Char) (ch : Char) : Option Char :=
  match inq with
  | none => some ch
  | some q => if q = ch then none else some q

/-- `strip_comments` (assembler.rs), over the remaining characters with the
current quote state: a `;` or `#` outside quotes ends the line. -/
def strip_comments_go (inq : Option Char) : List Char → List Char
  | [] => []
  | ch :: rest =>
    if ch = quoteChar ∨ ch = dquoteChar then
      ch :: strip_comments_go (quoteStep inq ch) rest
    else if (ch = ';' ∨ ch = '#') ∧ inq = none then []
    else ch :: strip_comments_go inq rest

/-- `strip_comments` (assembler.rs). -/
def strip_comments (line : List Char) : List Char :=
  strip_comments_go none line

/-- `validate_label` (assembler.rs). -/
def validate_label (label : List Char) (line_no : Nat) :
    Except AssemblerError Unit :=
  match label with
  | [] => .error ⟨"invalid label", some line_no⟩
  | first :: rest =>
    if ¬(first.isAlpha ∨ first = '_') then .error ⟨"invalid label", some line_no⟩
    else if rest.any (fun ch => ¬(ch.isAlphanum ∨ ch = '_')) then
      .error ⟨"invalid label", some line_no⟩
    else .ok ()

/-- The `loop` of `split_labels` (assembler.rs): peel `label:` prefixes.
The scan for `:` is `takeWhile`/`dropWhile`; a candidate prefix counts as
a label only if nonempty and whitespace-free after trimming.  Every
iteration drops at least the scanned `:` from `remainder`, so the loop
runs at most `remainder.length` times; the structural `fuel` counter,
started at `content.length + 1` by `split_labels`, makes that bound
explicit (its exhaustion branch is unreachable) while keeping the
definition kernel-reducible. -/
def split_labels_go (line_no : Nat) (fuel : Nat) (remainder : List Char)
    (acc : List (List Char)) :
    Except AssemblerError (List (List Char) × List Char) :=
  match fuel with
  | 0 => .ok (acc, trimChars remainder)
  | fuel + 1 =>
    let before := remainder.takeWhile (fun c => c ≠ ':')
    match remainder.dropWhile (fun c => c ≠ ':') with
    | [] => .ok (acc, trimChars remainder)
    | _ :: after0 =>
      let b := trimChars before
      let after := trimChars after0
      if b = [] ∨ b.any Char.isWhitespace then .ok (acc, trimChars remainder)
      else
        match validate_label b line_no with
        | .error e => .error e
        | .ok _ =>
          if after = [] then .ok (acc ++ [b], [])
          else split_labels_go line_no fuel after (acc ++ [b])

/-- `split_labels` (assembler.rs). -/
def split_labels (content : List Char) (line_no : Nat) :
    Except AssemblerError (List (List Char) × List Char) :=
  split_labels_go line_no (content.length + 1) (trimChars content) []

/-- The token-splitting loop of `split_arguments` (assembler.rs):
split on commas outside quotes, trim tokens, drop empties. -/
def split_arguments_go (inq : Option Char) (token : List Char) :
    List Char → List (List Char)
  | [] =>
    let tail := trimChars token
    if tail = [] then [] else [tail]
  | ch :: rest =>
    if ch = quoteChar ∨ ch = dquoteChar then
      split_arguments_go (quoteStep inq ch) (token ++ [ch]) rest
    else if ch = ',' ∧ inq = none then
      let value := trimChars token
      if value = [] then split_arguments_go none [] rest
      else value :: split_arguments_go none [] rest
    else split_arguments_go inq (token ++ [ch]) rest

/-- `split_arguments` (assembler.rs). -/
def split_arguments (text : List Char) : List (List Char) :=
  if text = [] then [] else split_arguments_go none [] text

/-- `split_operation_and_arguments` (assembler.rs):
`splitn(2, char::is_whitespace)`. -/
def split_operation_and_arguments (text : List Char) :
    List Char × List (List Char) :=
  let operation := text.takeWhile (fun c => ¬ c.isWhitespace)
  match text.dropWhile (fun c => ¬ c.isWhitespace) with
  | [] => (operation, [])
  | _ :: after => (operation, split_arguments after)

/-- `normalize_operation` (assembler.rs): trim, strip leading `.`s,
ASCII-uppercase. -/
def normalize_operation (operation : List Char) : List Char :=
  ((trimChars operation).dropWhile (fun c => c = '.')).map Char.toUpper

/-- `classify_operation` (assembler.rs). -/
def classify_operation (operation : List Char) : StatementKind :=
  if operation = "ORG".data then .DirectiveOrg
  else if operation = "DB".data then .DirectiveDb
  else if operation = "DW".data then .DirectiveDw
  else .Instruction

/-- `parse_string_literal` (assembler.rs): token of length ≥ 2 whose first
and last characters are the same quote character; yields the inner text. -/
def parse_string_literal (token : List Char) : Option (List Char) :=
  let value := trimChars token
  if 2 ≤ value.length then
    match value.head?, value.getLast? with
    | some first, some last =>
      if (first = quoteChar ∨ first = dquoteChar) ∧ first = last then
        some ((value.drop 1).dropLast)
      else none
    | _, _ => none
  else none

/-- `count_db_bytes` (assembler.rs): string literals contribute one byte
per character, any other argument one byte; zero total is an error. -/
def count_db_bytes (arguments : List (List Char)) (line_no : Nat) :
    Except AssemblerError Nat :=
  let total := arguments.foldl
    (fun total argument =>
      match parse_string_literal argument with
      | some text => total + text.length
      | none => total + 1) 0
  if total = 0 then .error ⟨"DB produced no bytes", some line_no⟩
  else .ok total

/-- Rust `char::to_digit(radix)`: digit value of `c` in the given radix. -/
def charDigit (radix : Nat) (c : Char) : Option Nat :=
  let v : Option Nat :=
    if c.isDigit then some (c.toNat - 48)
    else if 'a' ≤ c ∧ c ≤ 'z' then some (c.toNat - 97 + 10)
    else if 'A' ≤ c ∧ c ≤ 'Z' then some (c.toNat - 65 + 10)
    else none
  match v with
  | some v => if v < radix then some v else none
  | none => none

/-- The digit-accumulation loop shared by the embeddings of
`i32::from_str_radix` and `str::parse::<u16>`. -/
def parseDigitsNat (radix : Nat) : List Char → Nat → Option Nat
  | [], acc => some acc
  | c :: rest, acc =>
    match charDigit radix c with
    | some d => parseDigitsNat radix rest (acc * radix + d)
    | none => none

/-- Rust `i32::from_str_radix`: optional sign, at least one digit, all
digits valid for the radix, result within `i32` (overflow is an error). -/
def i32_from_str_radix (radix : Nat) (s : List Char) : Option Int :=
  let signedPart : Option (Bool × List Char) :=
    match s with
    | [] => none
    | '+' :: rest => if rest = [] then none else some (false, rest)
    | '-' :: rest => if rest = [] then none else some (true, rest)
    | _ => some (false, s)
  match signedPart with
  | none => none
  | some (neg, digits) =>
    match parseDigitsNat radix digits 0 with
    | none => none
    | some v =>
      if neg then
        if v ≤ 2147483648 then some (-(v : Int)) else none
      else
        if v ≤ 2147483647 then some (v : Int) else none

/-- Whether `p` is a prefix of `l` (Rust `str::starts_with`). -/
def beginsWith (p l : List Char) : Bool := l.take p.length = p

/-- `parse_prefixed_int` (encoding.rs): `0x`/`0X` hex, `0b`/`0B` binary,
`0o`/`0O` octal, else signed decimal, all through `i32::from_str_radix`. -/
def parse_prefixed_int (token : List Char) : Option Int :=
  if beginsWith "0x".data token ∨ beginsWith "0X".data token then
    i32_from_str_radix 16 (token.drop 2)
  else if beginsWith "0b".data token ∨ beginsWith "0B".data token then
    i32_from_str_radix 2 (token.drop 2)
  else if beginsWith "0o".data token ∨ beginsWith "0O".data token then
    i32_from_str_radix 8 (token.drop 2)
  else i32_from_str_radix 10 token

/-- `parse_numeric_literal` (encoding.rs): `$hex` rewriting, single-quoted
single character to its code point, otherwise `parse_prefixed_int`. -/
def parse_numeric_literal (token : List Char) (line_no : Nat) :
    Except AssemblerError Int :=
  let value := trimChars token
  let value := if value.head? = some '$' then '0' :: 'x' :: value.tail else value
  let asChar : Option Int :=
    if 3 ≤ value.length ∧ value.head? = some quoteChar ∧
        value.getLast? = some quoteChar then
      match (value.drop 1).dropLast with
      | [ch] => some (ch.toNat : Int)
      | _ => none
    else none
  match asChar with
  | some v => .ok v
  | none =>
    match parse_prefixed_int value with
    | some v => .ok v
    | none => .error ⟨"invalid value", some line_no⟩

/-- Rust `usize as i32` (64-bit `usize`, two's-complement truncation). -/
def usize_to_i32 (v : Nat) : Int :=
  let r := v % 4294967296
  if r < 2147483648 then (r : Int) else (r : Int) - 4294967296

/-- Rust `i32 as usize` (64-bit, sign extension then reinterpretation). -/
def i32_to_usize (v : Int) : Nat :=
  (v.emod 18446744073709551616).toNat

/-- Label lookup, the embedding of `labels.get(token)` on the `HashMap`
(key sets are duplicate-free, so association-list lookup agrees). -/
def lookupLabel (labels : List (List Char × Nat)) (token : List Char) :
    Option Nat :=
  (labels.find? (fun p => p.1 = token)).map (fun p => p.2)

/-- `parse_value` (encoding.rs): label value (as `i32`) or numeric
literal. -/
def parse_value (token : List Char) (labels : List (List Char × Nat))
    (line_no : Nat) : Except AssemblerError Int :=
  let token := trimChars token
  match lookupLabel labels token with
  | some value => .ok (usize_to_i32 value)
  | none => parse_numeric_literal token line_no

/-- `ensure_range` (encoding.rs). -/
def ensure_range (value minimum maximum : Int) (line_no : Nat) :
    Except AssemblerError Unit :=
  if value < minimum ∨ maximum < value then
    .error ⟨"out of range", some line_no⟩
  else .ok ()

/-- Rust `char::is_ascii_hexdigit`. -/
def isAsciiHexDigit (c : Char) : Bool :=
  c.isDigit ∨ ('a' ≤ c ∧ c ≤ 'f') ∨ ('A' ≤ c ∧ c ≤ 'F')

/-- `parse_register` (encoding.rs): `V` then one hex digit, or `V` then a
decimal number `0..=15`. -/
def parse_register (token : List Char) (line_no : Nat) :
    Except AssemblerError Nat :=
  let value := (trimChars token).map Char.toUpper
  match value with
  | 'V' :: reg_text =>
    if reg_text.length = 1 ∧ isAsciiHexDigit (reg_text.headD ' ') then
      .ok ((charDigit 16 (reg_text.headD ' ')).getD 0)
    else if reg_text.all Char.isDigit then
      match reg_text with
      | [] => .error ⟨"invalid register", some line_no⟩
      | _ =>
        match parseDigitsNat 10 reg_text 0 with
        | some reg =>
          if reg ≤ 65535 then
            if reg ≤ 15 then .ok reg
            else .error ⟨"invalid register", some line_no⟩
          else .error ⟨"invalid register", some line_no⟩
        | none => .error ⟨"invalid register", some line_no⟩
    else .error ⟨"invalid register", some line_no⟩
  | _ => .error ⟨"expected register", some line_no⟩

/-- `is_register` (encoding.rs). -/
def is_register (token : List Char) : Bool :=
  match parse_register token 0 with
  | .ok _ => true
  | .error _ => false

/-- `expect_arg_count` (encoding.rs). -/
def expect_arg_count (arguments : List (List Char)) (expected : Nat)
    (line_no : Nat) : Except AssemblerError Unit :=
  if arguments.length ≠ expected then
    .error ⟨"wrong argument count", some line_no⟩
  else .ok ()

/-- `encode_instruction` (encoding.rs): mnemonic plus arguments to a
16-bit opcode.  Argument indexing follows the Rust slice accesses, which
are guarded by the preceding argument-count checks. -/
def encode_instruction (mnemonic : List Char) (arguments : List (List Char))
    (labels : List (List Char × Nat)) (line_no : Nat) :
    Except AssemblerError Nat :=
  let op := mnemonic.map Char.toUpper
  let arg := fun i => arguments.getD i []
  if op = "CLS".data then
    match expect_arg_count arguments 0 line_no with
    | .error e => .error e
    | .ok _ => .ok 0x00E0
  else if op = "RET".data then
    match expect_arg_count arguments 0 line_no with
    | .error e => .error e
    | .ok _ => .ok 0x00EE
  else if op = "EXIT".data then
    match expect_arg_count arguments 0 line_no with
    | .error e => .error e
    | .ok _ => .ok 0x00FD
  else if op = "JP".data then
    if arguments.length = 1 then
      match parse_value (arg 0) labels line_no with
      | .error e => .error e
      | .ok address =>
        match ensure_range address 0 0x0FFF line_no with
        | .error e => .error e
        | .ok _ => .ok (0x1000 ||| address.toNat)
    else if arguments.length = 2 then
      match parse_register (arg 0) line_no with
      | .error e => .error e
      | .ok x_reg =>
        match parse_value (arg 1) labels line_no with
        | .error e => .error e
        | .ok nn =>
          match ensure_range nn 0 0x00FF line_no with
          | .error e => .error e
          | .ok _ => .ok (0xB000 ||| (x_reg <<< 8) ||| nn.toNat)
    else .error ⟨"JP expects one or two arguments", some line_no⟩
  else if op = "CALL".data then
    match expect_arg_count arguments 1 line_no with
    | .error e => .error e
    | .ok _ =>
      match parse_value (arg 0) labels line_no with
      | .error e => .error e
      | .ok address =>
        match ensure_range address 0 0x0FFF line_no with
        | .error e => .error e
        | .ok _ => .ok (0x2000 ||| address.toNat)
  else if op = "SE".data then
    match expect_arg_count arguments 2 line_no with
    | .error e => .error e
    | .ok _ =>
      match parse_register (arg 0) line_no with
      | .error e => .error e
      | .ok x_reg =>
        if is_register (arg 1) then
          match parse_register (arg 1) line_no with
          | .error e => .error e
          | .ok y_reg => .ok (0x5000 ||| (x_reg <<< 8) ||| (y_reg <<< 4))
        else
          match parse_value (arg 1) labels line_no with
          | .error e => .error e
          | .ok nn =>
            match ensure_range nn 0 0x00FF line_no with
            | .error e => .error e
            | .ok _ => .ok (0x3000 ||| (x_reg <<< 8) ||| nn.toNat)
  else if op = "SNE".data then
    match expect_arg_count arguments 2 line_no with
    | .error e => .error e
    | .ok _ =>
      match parse_register (arg 0) line_no with
      | .error e => .error e
      | .ok x_reg =>
        if is_register (arg 1) then
          match parse_register (arg 1) line_no with
          | .error e => .error e
          | .ok y_reg => .ok (0x9000 ||| (x_reg <<< 8) ||| (y_reg <<< 4))
        else
          match parse_value (arg 1) labels line_no with
          | .error e => .error e
          | .ok nn =>
            match ensure_range nn 0 0x00FF line_no with
            | .error e => .error e
            | .ok _ => .ok (0x4000 ||| (x_reg <<< 8) ||| nn.toNat)
  else if op = "LD".data then
    match expect_arg_count arguments 2 line_no with
    | .error e => .error e
    | .ok _ =>
      let dest := (trimChars (arg 0)).map Char.toUpper
      let src := (trimChars (arg 1)).map Char.toUpper
      if is_register dest then
        match parse_register dest line_no with
        | .error e => .error e
        | .ok x_reg =>
          if is_register src then
            match parse_register src line_no with
            | .error e => .error e
            | .ok y_reg => .ok (0x8000 ||| (x_reg <<< 8) ||| (y_reg <<< 4))
          else if src = "DT".data then .ok (0xF007 ||| (x_reg <<< 8))
          else if src = "K".data then .ok (0xF00A ||| (x_reg <<< 8))
          else if src = "[I]".data then .ok (0xF065 ||| (x_reg <<< 8))
          else
            match parse_value (arg 1) labels line_no with
            | .error e => .error e
            | .ok nn =>
              match ensure_range nn 0 0x00FF line_no with
              | .error e => .error e
              | .ok _ => .ok (0x6000 ||| (x_reg <<< 8) ||| nn.toNat)
      else if dest = "I".data then
        match parse_value (arg 1) labels line_no with
        | .error e => .error e
        | .ok address =>
          match ensure_range address 0 0x0FFF line_no with
          | .error e => .error e
          | .ok _ => .ok (0xA000 ||| address.toNat)
      else if dest = "DT".data then
        match parse_register (arg 1) line_no with
        | .error e => .error e
        | .ok r => .ok (0xF015 ||| (r <<< 8))
      else if dest = "ST".data then
        match parse_register (arg 1) line_no with
        | .error e => .error e
        | .ok r => .ok (0xF018 ||| (r <<< 8))
      else if dest = "F".data then
        match parse_register (arg 1) line_no with
        | .error e => .error e
        | .ok r => .ok (0xF029 ||| (r <<< 8))
      else if dest = "B".data then
        match parse_register (arg 1) line_no with
        | .error e => .error e
        | .ok r => .ok (0xF033 ||| (r <<< 8))
      else if dest = "[I]".data then
        match parse_register (arg 1) line_no with
        | .error e => .error e
        | .ok r => .ok (0xF055 ||| (r <<< 8))
      else .error ⟨"unsupported LD form", some line_no⟩
  else if op = "ADD".data then
    match expect_arg_count arguments 2 line_no with
    | .error e => .error e
    | .ok _ =>
      let dest := (trimChars (arg 0)).map Char.toUpper
      if dest = "I".data then
        match parse_register (arg 1) line_no with
        | .error e => .error e
        | .ok r => .ok (0xF01E ||| (r <<< 8))
      else
        match parse_register (arg 0) line_no with
        | .error e => .error e
        | .ok x_reg =>
          if is_register (arg 1) then
            match parse_register (arg 1) line_no with
            | .error e => .error e
            | .ok y_reg => .ok (0x8004 ||| (x_reg <<< 8) ||| (y_reg <<< 4))
          else
            match parse_value (arg 1) labels line_no with
            | .error e => .error e
            | .ok nn =>
              match ensure_range nn 0 0x00FF line_no with
              | .error e => .error e
              | .ok _ => .ok (0x7000 ||| (x_reg <<< 8) ||| nn.toNat)
  else if op = "OR".data ∨ op = "AND".data ∨ op = "XOR".data ∨
      op = "SUB".data ∨ op = "SUBN".data then
    match expect_arg_count arguments 2 line_no with
    | .error e => .error e
    | .ok _ =>
      match parse_register (arg 0) line_no with
      | .error e => .error e
      | .ok x_reg =>
        match parse_register (arg 1) line_no with
        | .error e => .error e
        | .ok y_reg =>
          let tail : Nat :=
            if op = "OR".data then 0x1
            else if op = "AND".data then 0x2
            else if op = "XOR".data then 0x3
            else if op = "SUB".data then 0x5
            else 0x7
          .ok (0x8000 ||| (x_reg <<< 8) ||| (y_reg <<< 4) ||| tail)
  else if op = "SHR".data ∨ op = "SHL".data then
    if arguments.length ≠ 1 ∧ arguments.length ≠ 2 then
      .error ⟨"SHR/SHL expects one or two arguments", some line_no⟩
    else
      match parse_register (arg 0) line_no with
      | .error e => .error e
      | .ok x_reg =>
        match (if arguments.length = 2 then parse_register (arg 1) line_no
               else .ok x_reg) with
        | .error e => .error e
        | .ok y_reg =>
          let tail : Nat := if op = "SHR".data then 0x6 else 0xE
          .ok (0x8000 ||| (x_reg <<< 8) ||| (y_reg <<< 4) ||| tail)
  else if op = "RND".data then
    match expect_arg_count arguments 2 line_no with
    | .error e => .error e
    | .ok _ =>
      match parse_register (arg 0) line_no with
      | .error e => .error e
      | .ok x_reg =>
        match parse_value (arg 1) labels line_no with
        | .error e => .error e
        | .ok nn =>
          match ensure_range nn 0 0x00FF line_no with
          | .error e => .error e
          | .ok _ => .ok (0xC000 ||| (x_reg <<< 8) ||| nn.toNat)
  else if op = "DRW".data then
    match expect_arg_count arguments 3 line_no with
    | .error e => .error e
    | .ok _ =>
      match parse_register (arg 0) line_no with
      | .error e => .error e
      | .ok x_reg =>
        match parse_register (arg 1) line_no with
        | .error e => .error e
        | .ok y_reg =>
          match parse_value (arg 2) labels line_no with
          | .error e => .error e
          | .ok n =>
            match ensure_range n 0 0x000F line_no with
            | .error e => .error e
            | .ok _ => .ok (0xD000 ||| (x_reg <<< 8) ||| (y_reg <<< 4) ||| n.toNat)
  else if op = "SKP".data then
    match expect_arg_count arguments 1 line_no with
    | .error e => .error e
    | .ok _ =>
      match parse_register (arg 0) line_no with
      | .error e => .error e
      | .ok x_reg => .ok (0xE09E ||| (x_reg <<< 8))
  else if op = "SKNP".data then
    match expect_arg_count arguments 1 line_no with
    | .error e => .error e
    | .ok _ =>
      match parse_register (arg 0) line_no with
      | .error e => .error e
      | .ok x_reg => .ok (0xE0A1 ||| (x_reg <<< 8))
  else .error ⟨"unknown instruction", some line_no⟩

/-- `encode_db_values` (assembler.rs): string literals expand to their
character bytes (`& 0xFF`), other arguments are range-checked bytes. -/
def encode_db_values (arguments : List (List Char))
    (labels : List (List Char × Nat)) (line_no : Nat) :
    Except AssemblerError (List Nat) :=
  match arguments with
  | [] => .ok []
  | argument :: rest =>
    match parse_string_literal argument with
    | some text =>
      match encode_db_values rest labels line_no with
      | .error e => .error e
      | .ok vals => .ok (text.map (fun ch => ch.toNat &&& 0xFF) ++ vals)
    | none =>
      match parse_value argument labels line_no with
      | .error e => .error e
      | .ok byte =>
        match ensure_range byte 0 0xFF line_no with
        | .error e => .error e
        | .ok _ =>
          match encode_db_values rest labels line_no with
          | .error e => .error e
          | .ok vals => .ok (byte.toNat :: vals)

/-- The inner `for argument in &statement.arguments` loop of the `DW` arm
of `encode_statements` (assembler.rs), threading output and address. -/
def encodeDwGo (labels : List (List Char × Nat)) (line_no : Nat) :
    List (List Char) → List Nat × Nat →
    Except AssemblerError (List Nat × Nat)
  | [], acc => .ok acc
  | argument :: rest, (output, current_address) =>
    match parse_value argument labels line_no with
    | .error e => .error e
    | .ok word =>
      match ensure_range word 0 0xFFFF line_no with
      | .error e => .error e
      | .ok _ =>
        encodeDwGo labels line_no rest
          (output ++ [(word.toNat >>> 8) &&& 0xFF, word.toNat &&& 0xFF],
           current_address + 2)

/-- One iteration of the `for statement in statements` loop of
`encode_statements` (assembler.rs), on the (output, current-address)
accumulator. -/
def encode_statement (labels : List (List Char × Nat))
    (acc : List Nat × Nat) (statement : Statement) :
    Except AssemblerError (List Nat × Nat) :=
  let (output, current_address) := acc
  match statement.kind with
  | .DirectiveOrg =>
    match parse_value (statement.arguments.getD 0 []) labels statement.line_no with
    | .error e => .error e
    | .ok t =>
      let target := i32_to_usize t
      if target < current_address then
        .error ⟨"ORG cannot move backwards", some statement.line_no⟩
      else .ok (output ++ List.replicate (target - current_address) 0, target)
  | .DirectiveDb =>
    match encode_db_values statement.arguments labels statement.line_no with
    | .error e => .error e
    | .ok db_values => .ok (output ++ db_values, current_address + db_values.length)
  | .DirectiveDw =>
    encodeDwGo labels statement.line_no statement.arguments acc
  | .Instruction =>
    match encode_instruction statement.operation statement.arguments labels
        statement.line_no with
    | .error e => .error e
    | .ok opcode =>
      .ok (output ++ [(opcode >>> 8) &&& 0xFF, opcode &&& 0xFF], current_address + 2)

/-- The statement loop of `encode_statements` (assembler.rs). -/
def encode_statements_go (labels : List (List Char × Nat)) :
    List Statement → List Nat × Nat → Except AssemblerError (List Nat × Nat)
  | [], acc => .ok acc
  | statement :: rest, acc =>
    match encode_statement labels acc statement with
    | .error e => .error e
    | .ok acc => encode_statements_go labels rest acc

/-- `encode_statements` (assembler.rs): pass 2, returning the output
bytes (the current-address cursor is a loop local). -/
def encode_statements (statements : List Statement)
    (labels : List (List Char × Nat)) (origin : Nat) :
    Except AssemblerError (List Nat) :=
  match encode_statements_go labels statements ([], origin) with
  | .error e => .error e
  | .ok (output, _) => .ok output

/-- The duplicate-checking label insertion loop of `parse_source`
(assembler.rs). -/
def insertLabels (labels : List (List Char × Nat))
    (line_labels : List (List Char)) (program_counter line_no : Nat) :
    Except AssemblerError (List (List Char × Nat)) :=
  match line_labels with
  | [] => .ok labels
  | label :: rest =>
    if labels.any (fun p => p.1 = label) then
      .error ⟨"duplicate label", some line_no⟩
    else insertLabels (labels ++ [(label, program_counter)]) rest program_counter line_no

/-- The per-line loop of `parse_source` (assembler.rs): strip comments,
harvest labels, classify, track the pass-1 program counter. -/
def parse_source_go (origin : Nat) :
    List (Nat × List Char) → List Statement → List (List Char × Nat) → Nat →
    Except AssemblerError (List Statement × List (List Char × Nat))
  | [], statements, labels, _ => .ok (statements, labels)
  | (line_no, raw_line) :: rest, statements, labels, program_counter =>
    let content := trimChars (strip_comments raw_line)
    if content = [] then parse_source_go origin rest statements labels program_counter
    else
      match split_labels content line_no with
      | .error e => .error e
      | .ok (line_labels, remainder) =>
        match insertLabels labels line_labels program_counter line_no with
        | .error e => .error e
        | .ok labels =>
          if remainder = [] then
            parse_source_go origin rest statements labels program_counter
          else
            let opArgs := split_operation_and_arguments remainder
            let normalized := normalize_operation opArgs.1
            let kind := classify_operation normalized
            let statements := statements ++
              [⟨line_no, kind, normalized, opArgs.2⟩]
            match kind with
            | .DirectiveOrg =>
              if opArgs.2.length ≠ 1 then
                .error ⟨"ORG expects exactly one argument", some line_no⟩
              else
                match parse_numeric_literal (opArgs.2.getD 0 []) line_no with
                | .error e => .error e
                | .ok t =>
                  let target := i32_to_usize t
                  if target < origin then
                    .error ⟨"ORG target cannot be below origin", some line_no⟩
                  else if target < program_counter then
                    .error ⟨"ORG target cannot move backwards", some line_no⟩
                  else parse_source_go origin rest statements labels target
            | .DirectiveDb =>
              if opArgs.2 = [] then
                .error ⟨"DB expects at least one argument", some line_no⟩
              else
                match count_db_bytes opArgs.2 line_no with
                | .error e => .error e
                | .ok n => parse_source_go origin rest statements labels (program_counter + n)
            | .DirectiveDw =>
              if opArgs.2 = [] then
                .error ⟨"DW expects at least one argument", some line_no⟩
              else
                parse_source_go origin rest statements labels
                  (program_counter + 2 * opArgs.2.length)
            | .Instruction =>
              parse_source_go origin rest statements labels (program_counter + 2)

/-- The piece-splitting of Rust `str::lines` on `'\n'`. -/
def splitNl : List Char → List (List Char)
  | [] => [[]]
  | c :: rest =>
    match splitNl rest with
    | [] => [[]]
    | cur :: done =>
      if c = '\n' then [] :: cur :: done else (c :: cur) :: done

/-- Rust `str::lines`: split on `'\n'`, drop a final empty piece produced
by a trailing newline, strip the `'\r'` before each `'\n'`. -/
def rustLines (source : List Char) : List (List Char) :=
  let stripCr := fun (l : List Char) =>
    if l.getLast? = some '\r' then l.dropLast else l
  let parts := splitNl source
  match parts.getLast? with
  | some [] => parts.dropLast.map stripCr
  | _ => (parts.dropLast.map stripCr) ++ [parts.getLastD []]

/-- `parse_source` (assembler.rs): pass 1 over the numbered source
lines. -/
def parse_source (source : List Char) (origin : Nat) :
    Except AssemblerError (List Statement × List (List Char × Nat)) :=
  let numbered := (rustLines source).enum.map (fun p => (p.1 + 1, p.2))
  parse_source_go origin numbered [] [] origin

/-- `assemble_text` (assembler.rs): pass 1 then pass 2. -/
def assemble_text (source : List Char) (origin : Nat) :
    Except AssemblerError (List Nat) :=
  match parse_source source origin with
  | .error e => .error e
  | .ok (statements, labels) => encode_statements statements labels origin

/-!
## Definitions supporting the claims

`StateInv` is the machine invariant of spec §3/§8; the `drawSpec*`
functions transcribe the spec's own wording of the `DXYN` algorithm, to be
compared with the source-derived `handle_opcode_dxyn_draw`; the
`*Of?` projections observe one component of a `RunResult`; the concrete
states below are the inputs of witnesses and counterexamples.
-/

/-- The between-instructions machine invariant (spec §3 "Invariants" and
§8), as an inductive invariant of `execute_cycle`: all `u8` fields are
below 256, `index` fits in 12 bits, screen cells are 0/1, stack entries
are fetched-from program counters (≤ 4096), and `pc` can overshoot the
memory end by at most one skipped instruction (≤ 4098). -/
structure StateInv (s : EmulatorState) : Prop where
  regs : ∀ i, s.registers i < 256
  mem : ∀ i, s.memory i < 256
  screen : ∀ i, s.screen_buffer i = 0 ∨ s.screen_buffer i = 1
  index : s.index < 4096
  delay : s.delay_timer < 256
  sound : s.sound_timer < 256
  stack : ∀ a ∈ s.stack, a ≤ 4096
  pc : s.pc ≤ 4098

/-- Modelled from the claim/spec wording of `DXYN` (spec §4.5): the body
of the per-bit step — "If the sprite bit is set, XOR onto
`screen_buffer[x + 64*y]`; if that pixel was previously 1, record a
collision." -/
def drawSpecStep (screen : Nat → Nat) (collision : Bool)
    (x y sprite_row b : Nat) : (Nat → Nat) × Bool :=
  if (sprite_row >>> (7 - b)) &&& 1 = 1 then
    (updf screen (x + 64 * y) (screen (x + 64 * y) ^^^ 1),
     if screen (x + 64 * y) = 1 then true else collision)
  else (screen, collision)

/-- Modelled from the claim/spec wording of `DXYN` (spec §4.5): "For bit
`b ∈ 0..8`: `x = x0 + b`; if `draw_wrap` then `x mod= 64`, else break
when `x >= 64`." -/
def drawSpecBits (wrap : Bool) (x0 y sprite_row : Nat) :
    List Nat → (Nat → Nat) × Bool → (Nat → Nat) × Bool
  | [], acc => acc
  | b :: rest, (screen, collision) =>
    if wrap then
      drawSpecBits wrap x0 y sprite_row rest
        (drawSpecStep screen collision ((x0 + b) % 64) y sprite_row b)
    else if 64 ≤ x0 + b then (screen, collision)
    else
      drawSpecBits wrap x0 y sprite_row rest
        (drawSpecStep screen collision (x0 + b) y sprite_row b)

/-- Modelled from the claim/spec wording of `DXYN` (spec §4.5): "For row
`r ∈ 0..N`: `y = y0 + r`; if `draw_wrap` then `y mod= 32`, else break
when `y >= 32`.  Read one sprite byte from `memory[I + r]`; `I + r` must
be in range or the whole instruction fails." -/
def drawSpecRows (wrap : Bool) (index : Nat) (memory : Nat → Nat)
    (x0 y0 : Nat) :
    List Nat → (Nat → Nat) × Bool → Except Chip8Error ((Nat → Nat) × Bool)
  | [], acc => .ok acc
  | r :: rest, (screen, collision) =>
    if wrap then
      if 4096 ≤ index + r then .error (.ProgramCounterOutOfBounds (index + r))
      else
        drawSpecRows wrap index memory x0 y0 rest
          (drawSpecBits wrap x0 ((y0 + r) % 32) (memory (index + r))
            (List.range 8) (screen, collision))
    else if 32 ≤ y0 + r then .ok (screen, collision)
    else if 4096 ≤ index + r then .error (.ProgramCounterOutOfBounds (index + r))
    else
      drawSpecRows wrap index memory x0 y0 rest
        (drawSpecBits wrap x0 (y0 + r) (memory (index + r))
          (List.range 8) (screen, collision))

/-- Modelled from the claim/spec wording of `DXYN` (spec §4.5): start at
`(Vx mod 64, Vy mod 32)`, run the rows, then "`VF = collision ? 1 : 0`;
raise `should_draw`". -/
def drawSpecDxyn (s : EmulatorState) (opcode : Nat) (quirks : Chip8Quirks) :
    RunResult :=
  let x0 := s.registers (x_register_index opcode) % 64
  let y0 := s.registers (y_register_index opcode) % 32
  match drawSpecRows quirks.draw_wrap s.index s.memory x0 y0
      (List.range (nibble_n opcode)) (s.screen_buffer, false) with
  | .error e => .err e
  | .ok (screen, collision) =>
    .ok { s with
          screen_buffer := screen
          registers := updf s.registers 0xF (if collision then 1 else 0)
          should_draw := true }

/-- Observe the program counter of a successful run. -/
def pcOf? : RunResult → Option Nat
  | .ok s => some s.pc
  | _ => none

/-- Observe the `op` field of a successful run. -/
def opOf? : RunResult → Option Nat
  | .ok s => some s.op
  | _ => none

/-- Observe the delay timer of a successful run. -/
def delayOf? : RunResult → Option Nat
  | .ok s => some s.delay_timer
  | _ => none

/-- Observe register `i` of a successful run. -/
def regOf? (i : Nat) : RunResult → Option Nat
  | .ok s => some (s.registers i)
  | _ => none

/-- Run one more `execute_cycle` on a successful outcome. -/
def runStep (quirks : Chip8Quirks) (rand : Nat) : RunResult → RunResult
  | .ok s => execute_cycle s quirks rand
  | x => x

/-- `EmulatorState::default()` (state.rs): everything zeroed,
`pc = 0x200`, `should_draw = true`. -/
def default_state : EmulatorState :=
  { memory := fun _ => 0
    registers := fun _ => 0
    stack := []
    key_inputs := fun _ => 0
    screen_buffer := fun _ => 0
    pc := PROGRAM_START
    index := 0
    delay_timer := 0
    sound_timer := 0
    should_draw := true
    exited := false
    op := 0 }

/-- Concrete state for the C3 failing input: `VF = 200`, `V1 = 100`. -/
def c3state : EmulatorState :=
  { default_state with registers := updf (updf default_state.registers 0xF 200) 1 100 }

/-- Concrete state for the C8 counterexample: `index = 0xFFF`, within the
spec's 12-bit invariant. -/
def c8state : EmulatorState :=
  { default_state with index := 0xFFF }

/-- Concrete state for the C8 amended theorem's witness: `index = 0x300`,
`V2 = 231` (the repository's own `fx33_stores_bcd_digits` test values). -/
def c8wit_state : EmulatorState :=
  { default_state with
    index := 0x300
    registers := updf default_state.registers 2 231 }

/-- Concrete state for the C7 witness: ROM `F0 0A`, key 5 pressed. -/
def c7wit_state : EmulatorState :=
  set_key_state (initialStateWithRom [0xF0, 0x0A]) 5 true

/-- Concrete state for the C6 witness's `RET` parts: ROM `00 EE`, one
return address on the stack. -/
def c6pop_state : EmulatorState :=
  { initialStateWithRom [0x00, 0xEE] with stack := [0x300] }

/-!
## Shared lemmas
-/

/-- Reading an updated cell. -/
theorem updf_same (f : Nat → Nat) (i v : Nat) : updf f i v i = v := by
  simp [updf]

/-- Reading an untouched cell. -/
theorem updf_other (f : Nat → Nat) (i v j : Nat) (h : j ≠ i) :
    updf f i v j = f j := by
  simp [updf, h]

/-- `updf` preserves a pointwise bound. -/
theorem updf_bound {f : Nat → Nat} {n : Nat} (hf : ∀ j, f j < n) {v : Nat}
    (hv : v < n) (i : Nat) : ∀ j, updf f i v j < n := by
  intro j
  unfold updf
  split
  · exact hv
  · exact hf j

/-- `updf` preserves the 0/1-valued property. -/
theorem updf_screen {f : Nat → Nat} (hf : ∀ j, f j = 0 ∨ f j = 1) {v : Nat}
    (hv : v = 0 ∨ v = 1) (i : Nat) : ∀ j, updf f i v j = 0 ∨ updf f i v j = 1 := by
  intro j
  unfold updf
  split
  · exact hv
  · exact hf j

/-- The masked low bit is 0 or 1. -/
theorem and_one_cases (a : Nat) : a &&& 1 = 0 ∨ a &&& 1 = 1 := by
  have h : a &&& 1 < 2 := Nat.and_lt_two_pow a (by decide : (1 : Nat) < 2 ^ 1)
  omega

/-- Decompose a `0xF0FF` mask hypothesis into its family and low-byte
parts. -/
theorem mask_split {opcode target : Nat} (h : opcode &&& 0xF0FF = target) :
    opcode &&& 0xF000 = target &&& 0xF000 ∧ opcode &&& 0x00FF = target &&& 0x00FF := by
  constructor
  · have : opcode &&& 0xF0FF &&& 0xF000 = target &&& 0xF000 := by rw [h]
    rwa [Nat.and_assoc, (by decide : (0xF0FF : Nat) &&& 0xF000 = 0xF000)] at this
  · have : opcode &&& 0xF0FF &&& 0x00FF = target &&& 0x00FF := by rw [h]
    rwa [Nat.and_assoc, (by decide : (0xF0FF : Nat) &&& 0x00FF = 0x00FF)] at this

/-!
## C9 — assembler data-directive scenario
-/

/-- C9: `assemble_text` on the four-line source
`ORG 0x200 / DB 0x12,34,'A' / DB "BC" / DW 0xABCD` with origin `0x200`
succeeds and returns exactly the bytes
`12 22 41 42 43 AB CD` (decimal literals, quoted-char literals, string
expansion, big-endian `DW`). -/
theorem c9_data_directives :
    assemble_text "ORG 0x200\nDB 0x12,34,'A'\nDB \"BC\"\nDW 0xABCD".data 0x200 =
      .ok [0x12, 0x22, 0x41, 0x42, 0x43, 0xAB, 0xCD] := by
  rfl

/-!
## C3 — the VF flag write is not the last mutation when `x = 0xF`
-/

/-- C3 (failing input): executing `8F14` (ADD VF, V1) with `VF = 200`,
`V1 = 100` leaves `VF = 44`, the wrapped sum written to `Vx`, not the
carry bit 1 demanded by the spec's "the flag write is the last observable
mutation" — the code writes the flag before the arithmetic result. -/
theorem c3_flag_overwritten :
    regOf? 0xF (execute_opcode c3state 0x8F14 ORIGINAL_QUIRKS 0) = some 44 ∧
      regOf? 0xF (execute_opcode c3state 0x8F14 ORIGINAL_QUIRKS 0) ≠ some 1 ∧
      256 ≤ c3state.registers 0xF + c3state.registers 1 := by
  refine ⟨rfl, ?_, by decide⟩
  decide

/-!
## C10 — determinism away from `CXKK`
-/

/-- C10: for every opcode whose top nibble is not `0xC`, `execute_opcode`
does not consult the random oracle: two runs from the same state with
different oracle values agree exactly. -/
theorem c10_deterministic (s : EmulatorState) (opcode : Nat)
    (quirks : Chip8Quirks) (r1 r2 : Nat) (h : opcode &&& 0xF000 ≠ 0xC000) :
    execute_opcode s opcode quirks r1 = execute_opcode s opcode quirks r2 := by
  unfold execute_opcode execute_opcode_dispatch
  generalize hf : opcode &&& 0xF000 = fam
  rw [hf] at h
  by_cases h0 : fam = 0x0000
  · subst h0; rfl
  by_cases h1 : fam = 0x1000
  · subst h1; rfl
  by_cases h2 : fam = 0x2000
  · subst h2; rfl
  by_cases h3 : fam = 0x3000
  · subst h3; rfl
  by_cases h4 : fam = 0x4000
  · subst h4; rfl
  by_cases h5 : fam = 0x5000
  · subst h5; rfl
  by_cases h6 : fam = 0x6000
  · subst h6; rfl
  by_cases h7 : fam = 0x7000
  · subst h7; rfl
  by_cases h8 : fam = 0x8000
  · subst h8; rfl
  by_cases h9 : fam = 0x9000
  · subst h9; rfl
  by_cases hA : fam = 0xA000
  · subst hA; rfl
  by_cases hB : fam = 0xB000
  · subst hB; rfl
  by_cases hD : fam = 0xD000
  · subst hD; rfl
  by_cases hE : fam = 0xE000
  · subst hE; rfl
  by_cases hF : fam = 0xF000
  · subst hF; rfl
  simp only [if_neg h0, if_neg h1, if_neg h2, if_neg h3, if_neg h4, if_neg h5,
    if_neg h6, if_neg h7, if_neg h8, if_neg h9, if_neg hA, if_neg hB,
    if_neg h, if_neg hD, if_neg hE, if_neg hF]

/-- Witness for C10 at the concrete opcode `0x6012`. -/
theorem c10_deterministic_witness :
    execute_opcode default_state 0x6012 ORIGINAL_QUIRKS 0 =
      execute_opcode default_state 0x6012 ORIGINAL_QUIRKS 99 :=
  c10_deterministic default_state 0x6012 ORIGINAL_QUIRKS 0 99 (by decide)

/-!
## Per-handler facts

Each `handle_*_inv` lemma packages what claims C1 and C2 need: which state
components the handler leaves untouched, bounds for the components it
rewrites, and the conditional timer frame.
-/

/-- `firstPressedAux` only returns members of its candidate list. -/
theorem firstPressedAux_mem {s : EmulatorState} {l : List Nat} {k : Nat}
    (h : firstPressedAux s l = some k) : k ∈ l := by
  induction l with
  | nil => simp [firstPressedAux] at h
  | cons i rest ih =>
    unfold firstPressedAux at h
    split at h
    · cases h; exact List.mem_cons_self _ _
    · exact List.mem_cons_of_mem _ (ih h)

/-- A pressed-key index is below 16. -/
theorem first_pressed_key_lt {s : EmulatorState} {k : Nat}
    (h : first_pressed_key s = some k) : k < 16 := by
  have := firstPressedAux_mem h
  exact List.mem_range.mp this

/-- A successful `memWrite` keeps every memory cell below 256. -/
theorem memWrite_bound {mem : Nat → Nat} {addr v : Nat} {mem' : Nat → Nat}
    (hmem : ∀ i, mem i < 256) (hv : v < 256)
    (h : memWrite mem addr v = some mem') : ∀ i, mem' i < 256 := by
  unfold memWrite at h
  split at h
  · cases h; exact updf_bound hmem hv _
  · cases h

/-- A successful `storeRegsLoop` keeps every memory cell below 256. -/
theorem storeRegsLoop_bound {regs : Nat → Nat} {base : Nat}
    (hregs : ∀ i, regs i < 256) :
    ∀ (l : List Nat) (mem mem' : Nat → Nat), (∀ i, mem i < 256) →
      storeRegsLoop regs base l mem = some mem' → ∀ i, mem' i < 256 := by
  intro l
  induction l with
  | nil => intro mem mem' hmem h; cases h; exact hmem
  | cons i rest ih =>
    intro mem mem' hmem h
    unfold storeRegsLoop at h
    split at h
    · cases h
    · rename_i m hm
      exact ih m mem' (memWrite_bound hmem (hregs i) hm) h

/-- A successful `loadRegsLoop` keeps every register below 256. -/
theorem loadRegsLoop_bound {mem : Nat → Nat} {base : Nat}
    (hmem : ∀ i, mem i < 256) :
    ∀ (l : List Nat) (regs regs' : Nat → Nat), (∀ i, regs i < 256) →
      loadRegsLoop mem base l regs = some regs' → ∀ i, regs' i < 256 := by
  intro l
  induction l with
  | nil => intro regs regs' hregs h; cases h; exact hregs
  | cons i rest ih =>
    intro regs regs' hregs h
    unfold loadRegsLoop at h
    split at h
    · exact ih _ regs' (updf_bound hregs (hmem _) i) h
    · cases h

/-- `drawBitStep` keeps screen cells 0/1 and the collision latch 0/1. -/
theorem drawBitStep_inv {screen : Nat → Nat} {collision : Nat}
    (hs : ∀ i, screen i = 0 ∨ screen i = 1) (hc : collision = 0 ∨ collision = 1)
    (x y row b : Nat) :
    (∀ i, (drawBitStep screen collision x y row b).1 i = 0 ∨
          (drawBitStep screen collision x y row b).1 i = 1) ∧
    ((drawBitStep screen collision x y row b).2 = 0 ∨
     (drawBitStep screen collision x y row b).2 = 1) := by
  simp only [drawBitStep]
  split
  · exact ⟨hs, hc⟩
  · constructor
    · intro i
      dsimp only
      refine updf_screen hs ?_ _ i
      rcases hs (x + y * SCREEN_WIDTH) with h | h <;> rw [h] <;> simp
    · dsimp only
      split
      · exact Or.inr rfl
      · exact hc

/-- `drawBitsGo` keeps screen cells 0/1 and the collision latch 0/1. -/
theorem drawBitsGo_inv {wrap : Bool} {x y row : Nat} :
    ∀ (bits : List Nat) (acc : (Nat → Nat) × Nat),
      (∀ i, acc.1 i = 0 ∨ acc.1 i = 1) → (acc.2 = 0 ∨ acc.2 = 1) →
      (∀ i, (drawBitsGo wrap x y row bits acc).1 i = 0 ∨
            (drawBitsGo wrap x y row bits acc).1 i = 1) ∧
      ((drawBitsGo wrap x y row bits acc).2 = 0 ∨
       (drawBitsGo wrap x y row bits acc).2 = 1) := by
  intro bits
  induction bits with
  | nil => intro acc hs hc; exact ⟨hs, hc⟩
  | cons b rest ih =>
    intro acc hs hc
    obtain ⟨screen, collision⟩ := acc
    simp only at hs hc
    unfold drawBitsGo
    split
    · exact ih _ (drawBitStep_inv hs hc _ y row b).1 (drawBitStep_inv hs hc _ y row b).2
    · split
      · exact ⟨hs, hc⟩
      · exact ih _ (drawBitStep_inv hs hc _ y row b).1 (drawBitStep_inv hs hc _ y row b).2

/-- `drawRowsGo` keeps screen cells 0/1 and the collision latch 0/1. -/
theorem drawRowsGo_inv {wrap : Bool} {index : Nat} {memory : Nat → Nat}
    {x0 y0 : Nat} :
    ∀ (rows : List Nat) (acc : (Nat → Nat) × Nat)
      (screen' : Nat → Nat) (collision' : Nat),
      (∀ i, acc.1 i = 0 ∨ acc.1 i = 1) → (acc.2 = 0 ∨ acc.2 = 1) →
      drawRowsGo wrap index memory x0 y0 rows acc = .ok (screen', collision') →
      (∀ i, screen' i = 0 ∨ screen' i = 1) ∧
      (collision' = 0 ∨ collision' = 1) := by
  intro rows
  induction rows with
  | nil =>
    intro acc screen' collision' hs hc h
    cases h
    exact ⟨hs, hc⟩
  | cons r rest ih =>
    intro acc screen' collision' hs hc h
    obtain ⟨screen, collision⟩ := acc
    simp only at hs hc
    simp only [drawRowsGo] at h
    split at h
    · split at h
      · cases h
      · exact ih _ _ _ (drawBitsGo_inv (List.range 8) _ hs hc).1
          (drawBitsGo_inv (List.range 8) _ hs hc).2 h
    · split at h
      · cases h; exact ⟨hs, hc⟩
      · split at h
        · cases h
        · exact ih _ _ _ (drawBitsGo_inv (List.range 8) _ hs hc).1
            (drawBitsGo_inv (List.range 8) _ hs hc).2 h

/-- `u8` bound for a bitwise or. -/
theorem u8_or_lt {a b : Nat} (ha : a < 256) (hb : b < 256) : a ||| b < 256 := by
  have h2 : a ||| b < 2 ^ 8 := Nat.or_lt_two_pow (by simpa) (by simpa)
  simpa using h2

/-- `u8` bound for a bitwise xor. -/
theorem u8_xor_lt {a b : Nat} (ha : a < 256) (hb : b < 256) : a ^^^ b < 256 := by
  have h2 : a ^^^ b < 2 ^ 8 := Nat.xor_lt_two_pow (by simpa) (by simpa)
  simpa using h2

/-- What `handle_family_0` can do to the state: clear the screen, pop the
stack into `pc`, raise `exited`, or nothing. -/
theorem handle_family_0_inv {s : EmulatorState} {opcode : Nat}
    {s' : EmulatorState} (h : handle_family_0 s opcode = .ok s') :
    s'.registers = s.registers ∧ s'.memory = s.memory ∧
    (∀ i, s'.screen_buffer i = s.screen_buffer i ∨ s'.screen_buffer i = 0) ∧
    s'.index = s.index ∧ s'.delay_timer = s.delay_timer ∧
    s'.sound_timer = s.sound_timer ∧
    (∀ a ∈ s'.stack, a ∈ s.stack) ∧ (s'.pc = s.pc ∨ s'.pc ∈ s.stack) := by
  unfold handle_family_0 at h
  split_ifs at h
  · cases h
    exact ⟨rfl, rfl, fun i => Or.inr rfl, rfl, rfl, rfl, fun a ha => ha,
      Or.inl rfl⟩
  · split at h
    · cases h
    · rename_i ret rest heq
      cases h
      refine ⟨rfl, rfl, fun i => Or.inl rfl, rfl, rfl, rfl, ?_, ?_⟩
      · intro a ha
        rw [heq]
        exact List.mem_cons_of_mem _ ha
      · rw [heq]
        exact Or.inr (List.mem_cons_self _ _)
  · cases h
    exact ⟨rfl, rfl, fun i => Or.inl rfl, rfl, rfl, rfl, fun a ha => ha,
      Or.inl rfl⟩
  · cases h
    exact ⟨rfl, rfl, fun i => Or.inl rfl, rfl, rfl, rfl, fun a ha => ha,
      Or.inl rfl⟩

/-- What `handle_opcode_5xy0_skip_eq_register` can do: skip or not. -/
theorem handle_5xy0_inv {s : EmulatorState} {opcode : Nat}
    {s' : EmulatorState} (h : handle_opcode_5xy0_skip_eq_register s opcode = .ok s') :
    s'.registers = s.registers ∧ s'.memory = s.memory ∧
    s'.screen_buffer = s.screen_buffer ∧ s'.index = s.index ∧
    s'.delay_timer = s.delay_timer ∧ s'.sound_timer = s.sound_timer ∧
    s'.stack = s.stack ∧ (s'.pc = s.pc ∨ s'.pc = s.pc + 2) := by
  unfold handle_opcode_5xy0_skip_eq_register at h
  split_ifs at h
  · cases h
    exact ⟨rfl, rfl, rfl, rfl, rfl, rfl, rfl, Or.inr rfl⟩
  · cases h
    exact ⟨rfl, rfl, rfl, rfl, rfl, rfl, rfl, Or.inl rfl⟩

/-- What `handle_opcode_9xy0_skip_neq_register` can do: skip or not. -/
theorem handle_9xy0_inv {s : EmulatorState} {opcode : Nat}
    {s' : EmulatorState} (h : handle_opcode_9xy0_skip_neq_register s opcode = .ok s') :
    s'.registers = s.registers ∧ s'.memory = s.memory ∧
    s'.screen_buffer = s.screen_buffer ∧ s'.index = s.index ∧
    s'.delay_timer = s.delay_timer ∧ s'.sound_timer = s.sound_timer ∧
    s'.stack = s.stack ∧ (s'.pc = s.pc ∨ s'.pc = s.pc + 2) := by
  unfold handle_opcode_9xy0_skip_neq_register at h
  split_ifs at h
  · cases h
    exact ⟨rfl, rfl, rfl, rfl, rfl, rfl, rfl, Or.inr rfl⟩
  · cases h
    exact ⟨rfl, rfl, rfl, rfl, rfl, rfl, rfl, Or.inl rfl⟩

/-- What `handle_family_e` can do: skip or not. -/
theorem handle_family_e_inv {s : EmulatorState} {opcode : Nat}
    {s' : EmulatorState} (h : handle_family_e s opcode = .ok s') :
    s'.registers = s.registers ∧ s'.memory = s.memory ∧
    s'.screen_buffer = s.screen_buffer ∧ s'.index = s.index ∧
    s'.delay_timer = s.delay_timer ∧ s'.sound_timer = s.sound_timer ∧
    s'.stack = s.stack ∧ (s'.pc = s.pc ∨ s'.pc = s.pc + 2) := by
  simp only [handle_family_e] at h
  split_ifs at h <;> cases h <;>
    first
    | exact ⟨rfl, rfl, rfl, rfl, rfl, rfl, rfl, Or.inr rfl⟩
    | exact ⟨rfl, rfl, rfl, rfl, rfl, rfl, rfl, Or.inl rfl⟩

/-- What `handle_family_8` can do: rewrite registers (staying in the `u8`
range), touching nothing else. -/
theorem handle_family_8_inv {s : EmulatorState} {opcode : Nat}
    {quirks : Chip8Quirks} {s' : EmulatorState}
    (h : handle_family_8 s opcode quirks = .ok s') :
    ((∀ i, s.registers i < 256) → ∀ i, s'.registers i < 256) ∧
    s'.memory = s.memory ∧ s'.screen_buffer = s.screen_buffer ∧
    s'.index = s.index ∧ s'.delay_timer = s.delay_timer ∧
    s'.sound_timer = s.sound_timer ∧ s'.stack = s.stack ∧ s'.pc = s.pc := by
  simp only [handle_family_8] at h
  by_cases hn0 : nibble_n opcode = 0x0
  · rw [if_pos hn0] at h
    cases h
    exact ⟨fun hr => updf_bound hr (hr _) _, rfl, rfl, rfl, rfl, rfl, rfl, rfl⟩
  rw [if_neg hn0] at h
  by_cases hn1 : nibble_n opcode = 0x1
  · rw [if_pos hn1] at h
    cases h
    exact ⟨fun hr => updf_bound hr (u8_or_lt (hr _) (hr _)) _,
      rfl, rfl, rfl, rfl, rfl, rfl, rfl⟩
  rw [if_neg hn1] at h
  by_cases hn2 : nibble_n opcode = 0x2
  · rw [if_pos hn2] at h
    cases h
    refine ⟨fun hr => updf_bound hr ?_ _, rfl, rfl, rfl, rfl, rfl, rfl, rfl⟩
    exact lt_of_le_of_lt Nat.and_le_right (hr _)
  rw [if_neg hn2] at h
  by_cases hn3 : nibble_n opcode = 0x3
  · rw [if_pos hn3] at h
    cases h
    exact ⟨fun hr => updf_bound hr (u8_xor_lt (hr _) (hr _)) _,
      rfl, rfl, rfl, rfl, rfl, rfl, rfl⟩
  rw [if_neg hn3] at h
  by_cases hn4 : nibble_n opcode = 0x4
  · rw [if_pos hn4] at h
    cases h
    refine ⟨fun hr => updf_bound (updf_bound hr ?_ _) ?_ _,
      rfl, rfl, rfl, rfl, rfl, rfl, rfl⟩
    · split <;> omega
    · exact Nat.mod_lt _ (by omega)
  rw [if_neg hn4] at h
  by_cases hn5 : nibble_n opcode = 0x5
  · rw [if_pos hn5] at h
    cases h
    refine ⟨fun hr => updf_bound (updf_bound hr ?_ _) ?_ _,
      rfl, rfl, rfl, rfl, rfl, rfl, rfl⟩
    · split <;> omega
    · exact Nat.mod_lt _ (by omega)
  rw [if_neg hn5] at h
  by_cases hn6 : nibble_n opcode = 0x6
  · rw [if_pos hn6] at h
    cases h
    refine ⟨fun hr => updf_bound (updf_bound hr ?_ _) ?_ _,
      rfl, rfl, rfl, rfl, rfl, rfl, rfl⟩
    · exact lt_of_le_of_lt Nat.and_le_right (by omega)
    · rw [Nat.shiftRight_eq_div_pow]
      exact lt_of_le_of_lt (Nat.div_le_self _ _) (hr _)
  rw [if_neg hn6] at h
  by_cases hn7 : nibble_n opcode = 0x7
  · rw [if_pos hn7] at h
    cases h
    refine ⟨fun hr => updf_bound (updf_bound hr ?_ _) ?_ _,
      rfl, rfl, rfl, rfl, rfl, rfl, rfl⟩
    · split <;> omega
    · exact Nat.mod_lt _ (by omega)
  rw [if_neg hn7] at h
  by_cases hnE : nibble_n opcode = 0xE
  · rw [if_pos hnE] at h
    cases h
    refine ⟨fun hr => updf_bound (updf_bound hr ?_ _) ?_ _,
      rfl, rfl, rfl, rfl, rfl, rfl, rfl⟩
    · rw [Nat.shiftRight_eq_div_pow]
      exact lt_of_le_of_lt (le_trans (Nat.div_le_self _ _) Nat.and_le_right)
        (by omega)
    · exact Nat.mod_lt _ (by omega)
  rw [if_neg hnE] at h
  cases h

/-- What `handle_opcode_dxyn_draw` can do: XOR the screen (keeping cells
0/1), latch the collision bit into `VF`, raise `should_draw`. -/
theorem handle_dxyn_inv {s : EmulatorState} {opcode : Nat}
    {quirks : Chip8Quirks} {s' : EmulatorState}
    (h : handle_opcode_dxyn_draw s opcode quirks = .ok s') :
    ((∀ i, s.registers i < 256) →
      (∀ i, s.screen_buffer i = 0 ∨ s.screen_buffer i = 1) →
      ∀ i, s'.registers i < 256) ∧
    s'.memory = s.memory ∧
    ((∀ i, s.screen_buffer i = 0 ∨ s.screen_buffer i = 1) →
      ∀ i, s'.screen_buffer i = 0 ∨ s'.screen_buffer i = 1) ∧
    s'.index = s.index ∧ s'.delay_timer = s.delay_timer ∧
    s'.sound_timer = s.sound_timer ∧ s'.stack = s.stack ∧ s'.pc = s.pc := by
  simp only [handle_opcode_dxyn_draw] at h
  split at h
  · cases h
  · rename_i screen collision heq
    cases h
    refine ⟨?_, rfl, ?_, rfl, rfl, rfl, rfl, rfl⟩
    · intro hr hsc
      refine updf_bound hr ?_ _
      rcases (drawRowsGo_inv _ _ _ _ hsc (Or.inl rfl) heq).2 with hco | hco <;>
        omega
    · intro hsc
      exact (drawRowsGo_inv _ _ _ _ hsc (Or.inl rfl) heq).1

/-- What `handle_family_f` can do: rewrite registers/memory/timers/index
within their ranges, leave screen/stack untouched, never advance `pc`
(only `FX0A` may rewind it), and leave the timers alone unless the low
byte is `0x15`/`0x18`. -/
theorem handle_family_f_inv {s : EmulatorState} {opcode : Nat}
    {quirks : Chip8Quirks} {s' : EmulatorState}
    (h : handle_family_f s opcode quirks = .ok s') :
    ((∀ i, s.registers i < 256) → (∀ i, s.memory i < 256) →
      s.delay_timer < 256 → ∀ i, s'.registers i < 256) ∧
    ((∀ i, s.registers i < 256) → (∀ i, s.memory i < 256) →
      ∀ i, s'.memory i < 256) ∧
    s'.screen_buffer = s.screen_buffer ∧
    (s.index < 4096 → s'.index < 4096) ∧
    ((∀ i, s.registers i < 256) → s.delay_timer < 256 → s'.delay_timer < 256) ∧
    ((∀ i, s.registers i < 256) → s.sound_timer < 256 → s'.sound_timer < 256) ∧
    (byte_nn opcode ≠ 0x15 → s'.delay_timer = s.delay_timer) ∧
    (byte_nn opcode ≠ 0x18 → s'.sound_timer = s.sound_timer) ∧
    s'.stack = s.stack ∧ s'.pc ≤ s.pc := by
  simp only [handle_family_f] at h
  by_cases h07 : byte_nn opcode = 0x07
  · rw [if_pos h07] at h
    cases h
    exact ⟨fun hr _ hd => updf_bound hr hd _, fun _ hm => hm, rfl, fun hi => hi,
      fun _ hd => hd, fun _ hs => hs, fun _ => rfl, fun _ => rfl, rfl,
      Nat.le_refl _⟩
  rw [if_neg h07] at h
  by_cases h0A : byte_nn opcode = 0x0A
  · rw [if_pos h0A] at h
    split at h
    · rename_i key hk
      cases h
      refine ⟨fun hr _ _ => updf_bound hr ?_ _, fun _ hm => hm, rfl,
        fun hi => hi, fun _ hd => hd, fun _ hs => hs, fun _ => rfl,
        fun _ => rfl, rfl, Nat.le_refl _⟩
      have := first_pressed_key_lt hk
      omega
    · cases h
      exact ⟨fun hr _ _ => hr, fun _ hm => hm, rfl, fun hi => hi,
        fun _ hd => hd, fun _ hs => hs, fun _ => rfl, fun _ => rfl, rfl,
        Nat.sub_le _ _⟩
  rw [if_neg h0A] at h
  by_cases h15 : byte_nn opcode = 0x15
  · rw [if_pos h15] at h
    cases h
    exact ⟨fun hr _ _ => hr, fun _ hm => hm, rfl, fun hi => hi,
      fun hr _ => hr _, fun _ hs => hs, fun hne => absurd h15 hne,
      fun _ => rfl, rfl, Nat.le_refl _⟩
  rw [if_neg h15] at h
  by_cases h18 : byte_nn opcode = 0x18
  · rw [if_pos h18] at h
    cases h
    exact ⟨fun hr _ _ => hr, fun _ hm => hm, rfl, fun hi => hi,
      fun _ hd => hd, fun hr _ => hr _, fun _ => rfl,
      fun hne => absurd h18 hne, rfl, Nat.le_refl _⟩
  rw [if_neg h18] at h
  by_cases h1E : byte_nn opcode = 0x1E
  · rw [if_pos h1E] at h
    cases h
    exact ⟨fun hr _ _ => hr, fun _ hm => hm, rfl,
      fun _ => lt_of_le_of_lt Nat.and_le_right (by omega),
      fun _ hd => hd, fun _ hs => hs, fun _ => rfl, fun _ => rfl, rfl,
      Nat.le_refl _⟩
  rw [if_neg h1E] at h
  by_cases h29 : byte_nn opcode = 0x29
  · rw [if_pos h29] at h
    cases h
    refine ⟨fun hr _ _ => hr, fun _ hm => hm, rfl, fun _ => ?_,
      fun _ hd => hd, fun _ hs => hs, fun _ => rfl, fun _ => rfl, rfl,
      Nat.le_refl _⟩
    have h1 : s.registers (x_register_index opcode) &&& 0xF ≤ 0xF :=
      Nat.and_le_right
    show (s.registers (x_register_index opcode) &&& 0xF) * 5 < 4096
    omega
  rw [if_neg h29] at h
  by_cases h33 : byte_nn opcode = 0x33
  · rw [if_pos h33] at h
    split at h
    · cases h
    · rename_i m1 hm1
      split at h
      · cases h
      · rename_i m2 hm2
        split at h
        · cases h
        · rename_i m3 hm3
          cases h
          refine ⟨fun hr _ _ => hr, fun hr hm => ?_, rfl, fun hi => hi,
            fun _ hd => hd, fun _ hs => hs, fun _ => rfl, fun _ => rfl, rfl,
            Nat.le_refl _⟩
          have hb1 : ∀ i, m1 i < 256 := memWrite_bound hm
            (lt_of_le_of_lt (Nat.div_le_self _ _) (hr _)) hm1
          have hq : s.registers (x_register_index opcode) % 100 < 100 :=
            Nat.mod_lt _ (by omega)
          have hb2 : ∀ i, m2 i < 256 := memWrite_bound hb1
            (lt_of_le_of_lt (Nat.div_le_self _ _) (by omega)) hm2
          have hv3 : s.registers (x_register_index opcode) % 10 < 256 :=
            lt_of_lt_of_le (Nat.mod_lt _ (by omega)) (by omega)
          show ∀ i, m3 i < 256
          exact memWrite_bound hb2 hv3 hm3
  rw [if_neg h33] at h
  by_cases h55 : byte_nn opcode = 0x55
  · rw [if_pos h55] at h
    split at h
    · cases h
    · rename_i mem hst
      split at h
      · cases h
        exact ⟨fun hr _ _ => hr,
          fun hr hm => storeRegsLoop_bound hr _ _ _ hm hst, rfl,
          fun _ => lt_of_le_of_lt Nat.and_le_right (by omega),
          fun _ hd => hd, fun _ hs => hs, fun _ => rfl, fun _ => rfl, rfl,
          Nat.le_refl _⟩
      · cases h
        exact ⟨fun hr _ _ => hr,
          fun hr hm => storeRegsLoop_bound hr _ _ _ hm hst, rfl,
          fun hi => hi, fun _ hd => hd, fun _ hs => hs, fun _ => rfl,
          fun _ => rfl, rfl, Nat.le_refl _⟩
  rw [if_neg h55] at h
  by_cases h65 : byte_nn opcode = 0x65
  · rw [if_pos h65] at h
    split at h
    · cases h
    · rename_i regs hld
      split at h
      · cases h
        exact ⟨fun hr hm _ => loadRegsLoop_bound hm _ _ _ hr hld,
          fun _ hm => hm, rfl,
          fun _ => lt_of_le_of_lt Nat.and_le_right (by omega),
          fun _ hd => hd, fun _ hs => hs, fun _ => rfl, fun _ => rfl, rfl,
          Nat.le_refl _⟩
      · cases h
        exact ⟨fun hr hm _ => loadRegsLoop_bound hm _ _ _ hr hld,
          fun _ hm => hm, rfl, fun hi => hi, fun _ hd => hd, fun _ hs => hs,
          fun _ => rfl, fun _ => rfl, rfl, Nat.le_refl _⟩
  rw [if_neg h65] at h
  cases h

/-- Join the family and low-byte masks of an opcode. -/
theorem mask_join {opcode a b : Nat} (hf : opcode &&& 0xF000 = a)
    (hn : opcode &&& 0x00FF = b) : opcode &&& 0xF0FF = a ||| b := by
  have hm : (0xF0FF : Nat) = 0xF000 ||| 0x00FF := by decide
  rw [hm, Nat.and_or_distrib_left, hf, hn]

/-- Everything claims C1 and C2 need about one successful `execute_opcode`
step: the timers are untouched unless the opcode is an `FX15`/`FX18`
form, and the machine invariant is carried to the next state whenever the
pre-state satisfies it with `pc ≤ 4096` (as the fetch guard of
`execute_cycle` ensures). -/
theorem execute_opcode_props {s : EmulatorState} {opcode : Nat}
    {quirks : Chip8Quirks} {rand : Nat} {s' : EmulatorState}
    (h : execute_opcode s opcode quirks rand = .ok s') :
    ((opcode &&& 0xF0FF ≠ 0xF015 → s'.delay_timer = s.delay_timer) ∧
     (opcode &&& 0xF0FF ≠ 0xF018 → s'.sound_timer = s.sound_timer)) ∧
    (StateInv s → s.pc ≤ 4096 → StateInv s') := by
  unfold execute_opcode execute_opcode_dispatch at h
  by_cases hfam0 : opcode &&& 0xF000 = 0x0000
  · rw [if_pos hfam0] at h
    obtain ⟨hr, hm, hsc, hi, hd, hsnd, hst, hpcs⟩ := handle_family_0_inv h
    refine ⟨⟨fun _ => hd, fun _ => hsnd⟩, fun hc hpc => ?_⟩
    refine ⟨?_, ?_, ?_, ?_, ?_, ?_, ?_, ?_⟩
    · intro i; rw [hr]; exact hc.regs i
    · intro i; rw [hm]; exact hc.mem i
    · intro i
      rcases hsc i with he | he
      · rw [he]; exact hc.screen i
      · exact Or.inl he
    · rw [hi]; exact hc.index
    · rw [hd]; exact hc.delay
    · rw [hsnd]; exact hc.sound
    · intro a ha; exact hc.stack a (hst a ha)
    · rcases hpcs with he | he
      · rw [he]; exact le_trans hpc (by omega)
      · exact le_trans (hc.stack _ he) (by omega)
  rw [if_neg hfam0] at h
  by_cases hfam1 : opcode &&& 0xF000 = 0x1000
  · rw [if_pos hfam1] at h
    cases h
    exact ⟨⟨fun _ => rfl, fun _ => rfl⟩, fun hc hpc =>
      ⟨hc.regs, hc.mem, hc.screen, hc.index, hc.delay, hc.sound, hc.stack,
       le_trans Nat.and_le_right (by omega)⟩⟩
  rw [if_neg hfam1] at h
  by_cases hfam2 : opcode &&& 0xF000 = 0x2000
  · rw [if_pos hfam2] at h
    cases h
    refine ⟨⟨fun _ => rfl, fun _ => rfl⟩, fun hc hpc =>
      ⟨hc.regs, hc.mem, hc.screen, hc.index, hc.delay, hc.sound, ?_,
       le_trans Nat.and_le_right (by omega)⟩⟩
    intro a ha
    rcases List.mem_cons.mp ha with rfl | hmem
    · exact le_trans (Nat.mod_le _ _) hpc
    · exact hc.stack a hmem
  rw [if_neg hfam2] at h
  by_cases hfam3 : opcode &&& 0xF000 = 0x3000
  · rw [if_pos hfam3] at h
    split at h
    · cases h
      exact ⟨⟨fun _ => rfl, fun _ => rfl⟩, fun hc hpc =>
        ⟨hc.regs, hc.mem, hc.screen, hc.index, hc.delay, hc.sound, hc.stack,
         show s.pc + 2 ≤ 4098 by omega⟩⟩
    · cases h
      exact ⟨⟨fun _ => rfl, fun _ => rfl⟩, fun hc hpc =>
        ⟨hc.regs, hc.mem, hc.screen, hc.index, hc.delay, hc.sound, hc.stack,
         show s.pc ≤ 4098 by omega⟩⟩
  rw [if_neg hfam3] at h
  by_cases hfam4 : opcode &&& 0xF000 = 0x4000
  · rw [if_pos hfam4] at h
    split at h
    · cases h
      exact ⟨⟨fun _ => rfl, fun _ => rfl⟩, fun hc hpc =>
        ⟨hc.regs, hc.mem, hc.screen, hc.index, hc.delay, hc.sound, hc.stack,
         show s.pc + 2 ≤ 4098 by omega⟩⟩
    · cases h
      exact ⟨⟨fun _ => rfl, fun _ => rfl⟩, fun hc hpc =>
        ⟨hc.regs, hc.mem, hc.screen, hc.index, hc.delay, hc.sound, hc.stack,
         show s.pc ≤ 4098 by omega⟩⟩
  rw [if_neg hfam4] at h
  by_cases hfam5 : opcode &&& 0xF000 = 0x5000
  · rw [if_pos hfam5] at h
    obtain ⟨hr, hm, hsc, hi, hd, hsnd, hst, hpcs⟩ := handle_5xy0_inv h
    refine ⟨⟨fun _ => hd, fun _ => hsnd⟩, fun hc hpc => ?_⟩
    refine ⟨?_, ?_, ?_, ?_, ?_, ?_, ?_, ?_⟩
    · intro i; rw [hr]; exact hc.regs i
    · intro i; rw [hm]; exact hc.mem i
    · intro i; rw [hsc]; exact hc.screen i
    · rw [hi]; exact hc.index
    · rw [hd]; exact hc.delay
    · rw [hsnd]; exact hc.sound
    · intro a ha; rw [hst] at ha; exact hc.stack a ha
    · rcases hpcs with he | he
      · rw [he]; exact le_trans hpc (by omega)
      · rw [he]; exact le_trans (Nat.add_le_add_right hpc 2) (by omega)
  rw [if_neg hfam5] at h
  by_cases hfam6 : opcode &&& 0xF000 = 0x6000
  · rw [if_pos hfam6] at h
    cases h
    exact ⟨⟨fun _ => rfl, fun _ => rfl⟩, fun hc hpc =>
      ⟨updf_bound hc.regs (lt_of_le_of_lt Nat.and_le_right (by omega)) _,
       hc.mem, hc.screen, hc.index, hc.delay, hc.sound, hc.stack,
       show s.pc ≤ 4098 by omega⟩⟩
  rw [if_neg hfam6] at h
  by_cases hfam7 : opcode &&& 0xF000 = 0x7000
  · rw [if_pos hfam7] at h
    cases h
    exact ⟨⟨fun _ => rfl, fun _ => rfl⟩, fun hc hpc =>
      ⟨updf_bound hc.regs (Nat.mod_lt _ (by omega)) _,
       hc.mem, hc.screen, hc.index, hc.delay, hc.sound, hc.stack,
       show s.pc ≤ 4098 by omega⟩⟩
  rw [if_neg hfam7] at h
  by_cases hfam8 : opcode &&& 0xF000 = 0x8000
  · rw [if_pos hfam8] at h
    obtain ⟨hr, hm, hsc, hi, hd, hsnd, hst, hpce⟩ := handle_family_8_inv h
    refine ⟨⟨fun _ => hd, fun _ => hsnd⟩, fun hc hpc => ?_⟩
    refine ⟨hr hc.regs, ?_, ?_, ?_, ?_, ?_, ?_, ?_⟩
    · intro i; rw [hm]; exact hc.mem i
    · intro i; rw [hsc]; exact hc.screen i
    · rw [hi]; exact hc.index
    · rw [hd]; exact hc.delay
    · rw [hsnd]; exact hc.sound
    · intro a ha; rw [hst] at ha; exact hc.stack a ha
    · rw [hpce]; exact le_trans hpc (by omega)
  rw [if_neg hfam8] at h
  by_cases hfam9 : opcode &&& 0xF000 = 0x9000
  · rw [if_pos hfam9] at h
    obtain ⟨hr, hm, hsc, hi, hd, hsnd, hst, hpcs⟩ := handle_9xy0_inv h
    refine ⟨⟨fun _ => hd, fun _ => hsnd⟩, fun hc hpc => ?_⟩
    refine ⟨?_, ?_, ?_, ?_, ?_, ?_, ?_, ?_⟩
    · intro i; rw [hr]; exact hc.regs i
    · intro i; rw [hm]; exact hc.mem i
    · intro i; rw [hsc]; exact hc.screen i
    · rw [hi]; exact hc.index
    · rw [hd]; exact hc.delay
    · rw [hsnd]; exact hc.sound
    · intro a ha; rw [hst] at ha; exact hc.stack a ha
    · rcases hpcs with he | he
      · rw [he]; exact le_trans hpc (by omega)
      · rw [he]; exact le_trans (Nat.add_le_add_right hpc 2) (by omega)
  rw [if_neg hfam9] at h
  by_cases hfamA : opcode &&& 0xF000 = 0xA000
  · rw [if_pos hfamA] at h
    cases h
    exact ⟨⟨fun _ => rfl, fun _ => rfl⟩, fun hc hpc =>
      ⟨hc.regs, hc.mem, hc.screen,
       lt_of_le_of_lt Nat.and_le_right (by omega),
       hc.delay, hc.sound, hc.stack, show s.pc ≤ 4098 by omega⟩⟩
  rw [if_neg hfamA] at h
  by_cases hfamB : opcode &&& 0xF000 = 0xB000
  · rw [if_pos hfamB] at h
    cases h
    exact ⟨⟨fun _ => rfl, fun _ => rfl⟩, fun hc hpc =>
      ⟨hc.regs, hc.mem, hc.screen, hc.index, hc.delay, hc.sound, hc.stack,
       le_trans Nat.and_le_right (by omega)⟩⟩
  rw [if_neg hfamB] at h
  by_cases hfamC : opcode &&& 0xF000 = 0xC000
  · rw [if_pos hfamC] at h
    cases h
    exact ⟨⟨fun _ => rfl, fun _ => rfl⟩, fun hc hpc =>
      ⟨updf_bound hc.regs
         (lt_of_le_of_lt (le_trans Nat.and_le_right Nat.and_le_right) (by omega)) _,
       hc.mem, hc.screen, hc.index, hc.delay, hc.sound, hc.stack,
       show s.pc ≤ 4098 by omega⟩⟩
  rw [if_neg hfamC] at h
  by_cases hfamD : opcode &&& 0xF000 = 0xD000
  · rw [if_pos hfamD] at h
    obtain ⟨hr, hm, hsc, hi, hd, hsnd, hst, hpce⟩ := handle_dxyn_inv h
    refine ⟨⟨fun _ => hd, fun _ => hsnd⟩, fun hc hpc => ?_⟩
    refine ⟨hr hc.regs hc.screen, ?_, hsc hc.screen, ?_, ?_, ?_, ?_, ?_⟩
    · intro i; rw [hm]; exact hc.mem i
    · rw [hi]; exact hc.index
    · rw [hd]; exact hc.delay
    · rw [hsnd]; exact hc.sound
    · intro a ha; rw [hst] at ha; exact hc.stack a ha
    · rw [hpce]; exact le_trans hpc (by omega)
  rw [if_neg hfamD] at h
  by_cases hfamE : opcode &&& 0xF000 = 0xE000
  · rw [if_pos hfamE] at h
    obtain ⟨hr, hm, hsc, hi, hd, hsnd, hst, hpcs⟩ := handle_family_e_inv h
    refine ⟨⟨fun _ => hd, fun _ => hsnd⟩, fun hc hpc => ?_⟩
    refine ⟨?_, ?_, ?_, ?_, ?_, ?_, ?_, ?_⟩
    · intro i; rw [hr]; exact hc.regs i
    · intro i; rw [hm]; exact hc.mem i
    · intro i; rw [hsc]; exact hc.screen i
    · rw [hi]; exact hc.index
    · rw [hd]; exact hc.delay
    · rw [hsnd]; exact hc.sound
    · intro a ha; rw [hst] at ha; exact hc.stack a ha
    · rcases hpcs with he | he
      · rw [he]; exact le_trans hpc (by omega)
      · rw [he]; exact le_trans (Nat.add_le_add_right hpc 2) (by omega)
  rw [if_neg hfamE] at h
  by_cases hfamF : opcode &&& 0xF000 = 0xF000
  · rw [if_pos hfamF] at h
    obtain ⟨hA, hB, hC, hD, hE, hF, hG, hH, hI, hJ⟩ := handle_family_f_inv h
    refine ⟨⟨?_, ?_⟩, fun hc hpc => ?_⟩
    · intro hne
      refine hG fun h15 => hne ?_
      rw [mask_join hfamF h15]
      decide
    · intro hne
      refine hH fun h18 => hne ?_
      rw [mask_join hfamF h18]
      decide
    · refine ⟨hA hc.regs hc.mem hc.delay, hB hc.regs hc.mem, ?_,
        hD hc.index, hE hc.regs hc.delay, hF hc.regs hc.sound, ?_, ?_⟩
      · intro i; rw [hC]; exact hc.screen i
      · intro a ha; rw [hI] at ha; exact hc.stack a ha
      · exact le_trans hJ (le_trans hpc (by omega))
  rw [if_neg hfamF] at h
  cases h

/-!
## C1 — `execute_cycle` and the timers
-/

/-- C1 (counterexample to the claim as stated): from the reachable state
one cycle after reset with ROM `60 07 F0 15` (`LD V0,7; LD DT,V0`), a
single `execute_cycle` call changes `delay_timer` from 0 to 7 — the
fetched opcode `F015` writes the delay timer. -/
theorem c1_counterexample :
    delayOf? (execute_cycle (initialStateWithRom [0x60, 0x07, 0xF0, 0x15])
      ORIGINAL_QUIRKS 0) = some 0 ∧
    delayOf? (runStep ORIGINAL_QUIRKS 0
      (execute_cycle (initialStateWithRom [0x60, 0x07, 0xF0, 0x15])
        ORIGINAL_QUIRKS 0)) = some 7 ∧
    (7 : Nat) ≠ 0 :=
  ⟨rfl, rfl, by decide⟩

/-- C1 (amended): a successful `execute_cycle` never mutates
`delay_timer` unless the fetched opcode has the `FX15` shape, and never
mutates `sound_timer` unless it has the `FX18` shape; `tick_timers` alone
decrements them. -/
theorem c1_execute_cycle_timers (s : EmulatorState) (quirks : Chip8Quirks)
    (rand : Nat) (s' : EmulatorState)
    (hok : execute_cycle s quirks rand = .ok s') :
    (fetch_opcode s &&& 0xF0FF ≠ 0xF015 → s'.delay_timer = s.delay_timer) ∧
    (fetch_opcode s &&& 0xF0FF ≠ 0xF018 → s'.sound_timer = s.sound_timer) := by
  unfold execute_cycle at hok
  by_cases hg : MEMORY_SIZE - 2 < s.pc
  · rw [if_pos hg] at hok
    cases hok
  · rw [if_neg hg] at hok
    exact (execute_opcode_props hok).1

/-- Witness for C1 at the reset state with an empty ROM (opcode `0000`). -/
theorem c1_witness :
    fetch_opcode (initialStateWithRom []) &&& 0xF0FF ≠ 0xF015 ∧
    ({ initialStateWithRom [] with pc := 0x202 } : EmulatorState).delay_timer =
      (initialStateWithRom []).delay_timer :=
  ⟨by decide,
   (c1_execute_cycle_timers (initialStateWithRom []) ORIGINAL_QUIRKS 0
     { initialStateWithRom [] with pc := 0x202 } rfl).1 (by decide)⟩

/-!
## C2 — the machine invariant
-/

/-- C2 (counterexample to the claim as stated): two cycles after reset
with ROM `1F FE` (`JP 0xFFE`) then the no-op word `0000` at `0xFFE`, the
program counter is 4096 = `memory.len`, outside `0..4096`; and one cycle
after reset with ROM `12 01` (`JP 0x201`), the program counter is the odd
value `0x201`. -/
theorem c2_counterexample :
    pcOf? (runStep ORIGINAL_QUIRKS 0
      (execute_cycle (initialStateWithRom [0x1F, 0xFE]) ORIGINAL_QUIRKS 0)) =
        some 4096 ∧
    ¬ (4096 < 4096) ∧
    pcOf? (execute_cycle (initialStateWithRom [0x12, 0x01]) ORIGINAL_QUIRKS 0) =
        some 0x201 ∧
    0x201 % 2 = 1 :=
  ⟨rfl, by decide, rfl, by decide⟩

/-- C2 (amended): `execute_cycle` preserves the machine invariant — every
register stays in `0..=255`, `index` in `0..=0x0FFF`, every screen cell
0 or 1, stack entries at most 4096 — while `pc` is only guaranteed to stay
at most `memory.len + 2 = 4098` and need not be even. -/
theorem c2_execute_cycle_inv (s : EmulatorState) (quirks : Chip8Quirks)
    (rand : Nat) (s' : EmulatorState) (hInv : StateInv s)
    (hok : execute_cycle s quirks rand = .ok s') : StateInv s' := by
  unfold execute_cycle at hok
  by_cases hg : MEMORY_SIZE - 2 < s.pc
  · rw [if_pos hg] at hok
    cases hok
  · rw [if_neg hg] at hok
    unfold MEMORY_SIZE at hg
    have hInv2 : StateInv { s with pc := s.pc + 2 } :=
      ⟨hInv.regs, hInv.mem, hInv.screen, hInv.index, hInv.delay, hInv.sound,
       hInv.stack, show s.pc + 2 ≤ 4098 by omega⟩
    have hpc2 : ({ s with pc := s.pc + 2 } : EmulatorState).pc ≤ 4096 := by
      show s.pc + 2 ≤ 4096
      omega
    exact (execute_opcode_props hok).2 hInv2 hpc2

/-- Witness for C2: the all-zero reset state satisfies the invariant and
one cycle (opcode `0000`) preserves it. -/
theorem c2_witness : StateInv ({ default_state with pc := 0x202 }) := by
  have h0 : StateInv default_state :=
    ⟨fun i => show (0 : Nat) < 256 by omega,
     fun i => show (0 : Nat) < 256 by omega,
     fun i => Or.inl rfl,
     show (0 : Nat) < 4096 by omega,
     show (0 : Nat) < 256 by omega,
     show (0 : Nat) < 256 by omega,
     fun a ha => absurd ha (List.not_mem_nil a),
     show (0x200 : Nat) ≤ 4098 by omega⟩
  exact c2_execute_cycle_inv default_state ORIGINAL_QUIRKS 0 _ h0 rfl

/-!
## C8 — `FX33` BCD store and its bounds
-/

/-- The middle BCD digit: the code's `(v % 100) / 10` equals the claim's
`(v / 10) % 10`. -/
theorem bcd_middle_digit (v : Nat) : v % 100 / 10 = v / 10 % 10 := by
  conv_rhs => rw [← Nat.div_add_mod v 100]
  rw [show (100 : Nat) * (v / 100) + v % 100 = 10 * (10 * (v / 100)) + v % 100 by ring]
  rw [Nat.mul_add_div (by omega)]
  rw [Nat.add_comm, Nat.add_mul_mod_self_left]
  have : v % 100 / 10 < 10 := by
    have h1 : v % 100 < 100 := Nat.mod_lt _ (by omega)
    omega
  rw [Nat.mod_eq_of_lt this]

/-- C8 (counterexample to the claim as stated): `index = 0xFFF` satisfies
the spec's 12-bit invariant, yet executing `F033` there takes the
out-of-bounds branch (a Rust panic on `memory[index + 1]`). -/
theorem c8_counterexample :
    c8state.index ≤ 0x0FFF ∧
    execute_opcode c8state 0xF033 ORIGINAL_QUIRKS 0 = RunResult.panic :=
  ⟨by decide, rfl⟩

/-- C8 (amended): under the precondition `index + 2 < 4096`, `FX33`
stores `Vx/100`, `(Vx/10)%10` and `Vx%10` at `index`, `index+1`,
`index+2`, and the out-of-bounds branch of the three stores is not
taken. -/
theorem c8_fx33 (s : EmulatorState) (opcode : Nat) (quirks : Chip8Quirks)
    (rand : Nat) (hop : opcode &&& 0xF0FF = 0xF033)
    (hidx : s.index + 2 < 4096) :
    execute_opcode s opcode quirks rand =
      .ok { s with
            op := opcode
            memory := (updf (updf (updf s.memory s.index
                (s.registers (x_register_index opcode) / 100))
              (s.index + 1) (s.registers (x_register_index opcode) / 10 % 10))
              (s.index + 2) (s.registers (x_register_index opcode) % 10)) } := by
  have hfam : opcode &&& 0xF000 = 0xF000 := by
    rw [(mask_split hop).1]
    decide
  have hbyte : byte_nn opcode = 0x33 := by
    show opcode &&& 0x00FF = 0x33
    rw [(mask_split hop).2]
    decide
  unfold execute_opcode execute_opcode_dispatch
  rw [if_neg (show ¬(opcode &&& 0xF000 = 0x0000) by rw [hfam]; decide),
    if_neg (show ¬(opcode &&& 0xF000 = 0x1000) by rw [hfam]; decide),
    if_neg (show ¬(opcode &&& 0xF000 = 0x2000) by rw [hfam]; decide),
    if_neg (show ¬(opcode &&& 0xF000 = 0x3000) by rw [hfam]; decide),
    if_neg (show ¬(opcode &&& 0xF000 = 0x4000) by rw [hfam]; decide),
    if_neg (show ¬(opcode &&& 0xF000 = 0x5000) by rw [hfam]; decide),
    if_neg (show ¬(opcode &&& 0xF000 = 0x6000) by rw [hfam]; decide),
    if_neg (show ¬(opcode &&& 0xF000 = 0x7000) by rw [hfam]; decide),
    if_neg (show ¬(opcode &&& 0xF000 = 0x8000) by rw [hfam]; decide),
    if_neg (show ¬(opcode &&& 0xF000 = 0x9000) by rw [hfam]; decide),
    if_neg (show ¬(opcode &&& 0xF000 = 0xA000) by rw [hfam]; decide),
    if_neg (show ¬(opcode &&& 0xF000 = 0xB000) by rw [hfam]; decide),
    if_neg (show ¬(opcode &&& 0xF000 = 0xC000) by rw [hfam]; decide),
    if_neg (show ¬(opcode &&& 0xF000 = 0xD000) by rw [hfam]; decide),
    if_neg (show ¬(opcode &&& 0xF000 = 0xE000) by rw [hfam]; decide),
    if_pos hfam]
  simp only [handle_family_f, hbyte, memWrite, MEMORY_SIZE]
  norm_num
  rw [if_pos (show s.index < 4096 by omega)]
  dsimp only
  rw [if_pos (show s.index + 1 < 4096 by omega)]
  dsimp only
  rw [if_pos (show s.index + 2 < 4096 by omega)]
  dsimp only
  rw [bcd_middle_digit]

/-- Witness for C8 at the repository's own BCD test values
(`V2 = 231`, `I = 0x300`, opcode `F233`). -/
theorem c8_witness :
    execute_opcode c8wit_state 0xF233 ORIGINAL_QUIRKS 0 =
      .ok { c8wit_state with
            op := 0xF233
            memory := (updf (updf (updf c8wit_state.memory 0x300 2) 0x301 3)
              0x302 1) } :=
  c8_fx33 c8wit_state 0xF233 ORIGINAL_QUIRKS 0 (by decide) (by decide)

/-!
## C6 — `2NNN` push and `00EE` pop
-/

/-- C6: when the fetched opcode is `2NNN`, `execute_cycle` pushes the
post-fetch program counter `pc + 2` and jumps to `NNN`; when it is
`00EE`, a non-empty stack pops its top into `pc` and an empty stack fails
with the stack-underflow error. -/
theorem c6_call_ret (s : EmulatorState) (quirks : Chip8Quirks) (rand : Nat)
    (hpc : s.pc ≤ 4094) :
    (fetch_opcode s &&& 0xF000 = 0x2000 →
      execute_cycle s quirks rand =
        .ok { s with
              op := fetch_opcode s
              stack := (s.pc + 2) :: s.stack
              pc := fetch_opcode s &&& 0x0FFF }) ∧
    (fetch_opcode s = 0x00EE →
      (∀ ret rest, s.stack = ret :: rest →
        execute_cycle s quirks rand =
          .ok { s with op := 0x00EE, pc := ret, stack := rest }) ∧
      (s.stack = [] → execute_cycle s quirks rand = .err .StackUnderflow)) := by
  have hguard : ¬(MEMORY_SIZE - 2 < s.pc) := by
    unfold MEMORY_SIZE
    omega
  constructor
  · intro hfam
    unfold execute_cycle
    rw [if_neg hguard]
    unfold execute_opcode execute_opcode_dispatch
    rw [if_neg (show ¬(fetch_opcode s &&& 0xF000 = 0x0000) by rw [hfam]; decide),
      if_neg (show ¬(fetch_opcode s &&& 0xF000 = 0x1000) by rw [hfam]; decide),
      if_pos hfam]
    dsimp only
    rw [Nat.mod_eq_of_lt (show s.pc + 2 < 65536 by omega)]
    rfl
  · intro hop
    have hrun : execute_cycle s quirks rand =
        handle_family_0 { s with pc := s.pc + 2, op := 0x00EE } 0x00EE := by
      unfold execute_cycle
      rw [if_neg hguard, hop]
      rfl
    constructor
    · intro ret rest hstack
      rw [hrun]
      simp only [handle_family_0]
      norm_num
      rw [show ({ s with pc := s.pc + 2, op := 0x00EE } : EmulatorState).stack =
        ret :: rest from hstack]
    · intro hstack
      rw [hrun]
      simp only [handle_family_0]
      norm_num
      rw [show ({ s with pc := s.pc + 2, op := 0x00EE } : EmulatorState).stack =
        ([] : List Nat) from hstack]

/-- Witness for C6: a `CALL 0x200` from reset pushes `0x202` and jumps; a
`RET` with return address `0x300` pops it; a `RET` on the empty stack
underflows. -/
theorem c6_witness :
    execute_cycle (initialStateWithRom [0x22, 0x00]) ORIGINAL_QUIRKS 0 =
      .ok { initialStateWithRom [0x22, 0x00] with
            op := 0x2200
            stack := [0x202]
            pc := 0x200 } ∧
    execute_cycle c6pop_state ORIGINAL_QUIRKS 0 =
      .ok { c6pop_state with op := 0x00EE, pc := 0x300, stack := [] } ∧
    execute_cycle (initialStateWithRom [0x00, 0xEE]) ORIGINAL_QUIRKS 0 =
      .err .StackUnderflow :=
  ⟨(c6_call_ret (initialStateWithRom [0x22, 0x00]) ORIGINAL_QUIRKS 0
      (by decide)).1 (by decide),
   ((c6_call_ret c6pop_state ORIGINAL_QUIRKS 0 (by decide)).2 (by decide)).1
      0x300 [] rfl,
   ((c6_call_ret (initialStateWithRom [0x00, 0xEE]) ORIGINAL_QUIRKS 0
      (by decide)).2 (by decide)).2 rfl⟩

/-!
## C7 — `FX0A` wait-for-keypress
-/

/-- Over a contiguous index range, `firstPressedAux` returns the first
index whose key value is 1. -/
theorem firstPressedAux_lowest {s : EmulatorState} :
    ∀ (n a k : Nat), firstPressedAux s (List.range' a n) = some k →
      s.key_inputs k = 1 ∧ ∀ j, a ≤ j → j < k → s.key_inputs j ≠ 1 := by
  intro n
  induction n with
  | zero =>
    intro a k h
    simp [List.range', firstPressedAux] at h
  | succ m ih =>
    intro a k h
    rw [List.range'_succ] at h
    unfold firstPressedAux at h
    split at h
    · rename_i hkey
      cases h
      exact ⟨hkey, fun j hj1 hj2 => by omega⟩
    · rename_i hkey
      have hrest := ih (a + 1) k h
      refine ⟨hrest.1, fun j hj1 hj2 => ?_⟩
      rcases Nat.eq_or_lt_of_le hj1 with heq | hlt
      · rw [heq] at hkey
        exact hkey
      · exact hrest.2 j hlt hj2

/-- `first_pressed_key` returns the lowest pressed key index. -/
theorem first_pressed_key_lowest {s : EmulatorState} {k : Nat}
    (h : first_pressed_key s = some k) :
    s.key_inputs k = 1 ∧ ∀ j < k, s.key_inputs j ≠ 1 := by
  unfold first_pressed_key at h
  rw [List.range_eq_range'] at h
  have := firstPressedAux_lowest 16 0 k h
  exact ⟨this.1, fun j hj => this.2 j (Nat.zero_le j) hj⟩

/-- C7 (counterexample to the claim as stated): with no key pressed,
executing `F00A` from reset with ROM `F0 0A` does rewind `pc` to the
opcode's address, but it also changes the `op` field from 0 to `0xF00A`,
so "changes no other state" is false. -/
theorem c7_counterexample :
    (initialStateWithRom [0xF0, 0x0A]).op = 0 ∧
    first_pressed_key (initialStateWithRom [0xF0, 0x0A]) = none ∧
    opOf? (execute_cycle (initialStateWithRom [0xF0, 0x0A]) ORIGINAL_QUIRKS 0) =
      some 0xF00A ∧
    pcOf? (execute_cycle (initialStateWithRom [0xF0, 0x0A]) ORIGINAL_QUIRKS 0) =
      some 0x200 ∧
    (0xF00A : Nat) ≠ 0 :=
  ⟨rfl, rfl, rfl, rfl, by decide⟩

/-- C7 (amended): executing an `FX0A` form with at least one key pressed
sets `Vx` to the lowest pressed key index and leaves `pc` advanced past
the instruction; with no key pressed it leaves `pc` back at the opcode's
address so the instruction re-executes, and in both cases the only other
change is the recording of the fetched opcode in `op`. -/
theorem c7_fx0a (s : EmulatorState) (quirks : Chip8Quirks) (rand : Nat)
    (hpc : s.pc ≤ 4094) (hop : fetch_opcode s &&& 0xF0FF = 0xF00A) :
    (∀ key, first_pressed_key s = some key →
      execute_cycle s quirks rand =
        .ok { s with
              op := fetch_opcode s
              pc := s.pc + 2
              registers := updf s.registers (x_register_index (fetch_opcode s)) key } ∧
      s.key_inputs key = 1 ∧ ∀ j < key, s.key_inputs j ≠ 1) ∧
    (first_pressed_key s = none →
      execute_cycle s quirks rand = .ok { s with op := fetch_opcode s }) := by
  have hguard : ¬(MEMORY_SIZE - 2 < s.pc) := by
    unfold MEMORY_SIZE
    omega
  have hfam : fetch_opcode s &&& 0xF000 = 0xF000 := by
    rw [(mask_split hop).1]
    decide
  have hbyte : byte_nn (fetch_opcode s) = 0x0A := by
    show fetch_opcode s &&& 0x00FF = 0x0A
    rw [(mask_split hop).2]
    decide
  have hrun : execute_cycle s quirks rand =
      handle_family_f { s with pc := s.pc + 2, op := fetch_opcode s }
        (fetch_opcode s) quirks := by
    unfold execute_cycle
    rw [if_neg hguard]
    unfold execute_opcode execute_opcode_dispatch
    rw [if_neg (show ¬(fetch_opcode s &&& 0xF000 = 0x0000) by rw [hfam]; decide),
      if_neg (show ¬(fetch_opcode s &&& 0xF000 = 0x1000) by rw [hfam]; decide),
      if_neg (show ¬(fetch_opcode s &&& 0xF000 = 0x2000) by rw [hfam]; decide),
      if_neg (show ¬(fetch_opcode s &&& 0xF000 = 0x3000) by rw [hfam]; decide),
      if_neg (show ¬(fetch_opcode s &&& 0xF000 = 0x4000) by rw [hfam]; decide),
      if_neg (show ¬(fetch_opcode s &&& 0xF000 = 0x5000) by rw [hfam]; decide),
      if_neg (show ¬(fetch_opcode s &&& 0xF000 = 0x6000) by rw [hfam]; decide),
      if_neg (show ¬(fetch_opcode s &&& 0xF000 = 0x7000) by rw [hfam]; decide),
      if_neg (show ¬(fetch_opcode s &&& 0xF000 = 0x8000) by rw [hfam]; decide),
      if_neg (show ¬(fetch_opcode s &&& 0xF000 = 0x9000) by rw [hfam]; decide),
      if_neg (show ¬(fetch_opcode s &&& 0xF000 = 0xA000) by rw [hfam]; decide),
      if_neg (show ¬(fetch_opcode s &&& 0xF000 = 0xB000) by rw [hfam]; decide),
      if_neg (show ¬(fetch_opcode s &&& 0xF000 = 0xC000) by rw [hfam]; decide),
      if_neg (show ¬(fetch_opcode s &&& 0xF000 = 0xD000) by rw [hfam]; decide),
      if_neg (show ¬(fetch_opcode s &&& 0xF000 = 0xE000) by rw [hfam]; decide),
      if_pos hfam]
  have hfp : first_pressed_key { s with pc := s.pc + 2, op := fetch_opcode s } =
      first_pressed_key s := rfl
  constructor
  · intro key hk
    refine ⟨?_, (first_pressed_key_lowest hk).1, (first_pressed_key_lowest hk).2⟩
    rw [hrun]
    simp only [handle_family_f, hbyte]
    norm_num
    rw [hfp, hk]
  · intro hnone
    rw [hrun]
    simp only [handle_family_f, hbyte]
    norm_num
    rw [hfp, hnone]

/-- Witness for C7: ROM `F0 0A` with key 5 pressed sets `V0 = 5` and
advances `pc`. -/
theorem c7_witness :
    first_pressed_key c7wit_state = some 5 ∧
    execute_cycle c7wit_state ORIGINAL_QUIRKS 0 =
      .ok { c7wit_state with
            op := 0xF00A
            pc := 0x202
            registers := updf c7wit_state.registers 0 5 } ∧
    c7wit_state.key_inputs 5 = 1 := by
  have h := (c7_fx0a c7wit_state ORIGINAL_QUIRKS 0 (by decide) (by decide)).1 5 rfl
  exact ⟨rfl, h.1, h.2.1⟩

/-!
## C5 — the origin law of pass 2
-/

/-- The `DW` inner loop advances the output length and the address
cursor in lockstep. -/
theorem encodeDwGo_len {labels : List (List Char × Nat)} {line_no : Nat} :
    ∀ (args : List (List Char)) (out : List Nat) (addr : Nat)
      (out' : List Nat) (addr' : Nat),
      encodeDwGo labels line_no args (out, addr) = .ok (out', addr') →
      out'.length + addr = out.length + addr' ∧ addr ≤ addr' := by
  intro args
  induction args with
  | nil =>
    intro out addr out' addr' h
    cases h
    exact ⟨rfl, Nat.le_refl _⟩
  | cons a rest ih =>
    intro out addr out' addr' h
    unfold encodeDwGo at h
    split at h
    · cases h
    · split at h
      · cases h
      · have := ih _ _ _ _ h
        simp only [List.length_append, List.length_cons, List.length_nil] at this
        omega

/-- One pass-2 statement advances the output length and the address
cursor in lockstep. -/
theorem encode_statement_len {labels : List (List Char × Nat)}
    {statement : Statement} {out : List Nat} {addr : Nat}
    {out' : List Nat} {addr' : Nat}
    (h : encode_statement labels (out, addr) statement = .ok (out', addr')) :
    out'.length + addr = out.length + addr' ∧ addr ≤ addr' := by
  simp only [encode_statement] at h
  split at h
  · split at h
    · cases h
    · split at h
      · cases h
      · rename_i hnot
        cases h
        simp only [List.length_append, List.length_replicate]
        omega
  · split at h
    · cases h
    · cases h
      simp only [List.length_append]
      omega
  · exact encodeDwGo_len _ _ _ _ _ h
  · split at h
    · cases h
    · cases h
      simp only [List.length_append, List.length_cons, List.length_nil]
      omega

/-- The pass-2 statement loop advances the output length and the address
cursor in lockstep. -/
theorem encode_statements_go_len {labels : List (List Char × Nat)} :
    ∀ (statements : List Statement) (out : List Nat) (addr : Nat)
      (out' : List Nat) (addr' : Nat),
      encode_statements_go labels statements (out, addr) = .ok (out', addr') →
      out'.length + addr = out.length + addr' ∧ addr ≤ addr' := by
  intro statements
  induction statements with
  | nil =>
    intro out addr out' addr' h
    cases h
    exact ⟨rfl, Nat.le_refl _⟩
  | cons st rest ih =>
    intro out addr out' addr' h
    unfold encode_statements_go at h
    split at h
    · cases h
    · rename_i acc1 hstep
      obtain ⟨o1, a1⟩ := acc1
      have h1 := encode_statement_len hstep
      have h2 := ih _ _ _ _ h
      omega

/-- C5: whenever pass 1 and pass 2 succeed, `assemble_text` succeeds with
pass 2's output, and the length of the returned byte vector equals the
final program counter of pass 2 minus the origin (ORG zero-padding
included, since the padded `ORG` arm advances both in lockstep). -/
theorem c5_origin_law (source : List Char) (origin : Nat)
    (statements : List Statement) (labels : List (List Char × Nat))
    (bytes : List Nat) (final_pc : Nat)
    (hparse : parse_source source origin = .ok (statements, labels))
    (henc : encode_statements_go labels statements ([], origin) =
      .ok (bytes, final_pc)) :
    assemble_text source origin = .ok bytes ∧ origin ≤ final_pc ∧
      bytes.length = final_pc - origin := by
  have hlen := encode_statements_go_len statements [] origin bytes final_pc henc
  refine ⟨?_, hlen.2, by have := hlen.1; simp at this; omega⟩
  unfold assemble_text
  rw [hparse]
  dsimp only
  unfold encode_statements
  rw [henc]

/-- Witness for C5 on the one-line source `RET`. -/
theorem c5_witness :
    assemble_text "RET".data 0x200 = .ok [0x00, 0xEE] ∧
    (0x200 : Nat) ≤ 0x202 ∧ ([0x00, 0xEE] : List Nat).length = 0x202 - 0x200 :=
  c5_origin_law "RET".data 0x200
    [⟨1, .Instruction, "RET".data, []⟩] [] [0x00, 0xEE] 0x202 rfl rfl

/-!
## C4 — `DXYN` refines the spec's wording
-/

/-- The per-bit step of the source draw agrees with the spec-worded step,
relating the source's 0/1 collision latch to the spec's boolean. -/
theorem drawStep_agree (screen : Nat → Nat) (c : Bool) (x y row b : Nat) :
    drawBitStep screen (if c then 1 else 0) x y row b =
      ((drawSpecStep screen c x y row b).1,
       if (drawSpecStep screen c x y row b).2 then 1 else 0) := by
  rcases and_one_cases (row >>> (7 - b)) with hp | hp
  · simp [drawBitStep, drawSpecStep, hp]
  · by_cases hs : screen (x + y * 64) = 1
    · simp [drawBitStep, drawSpecStep, SCREEN_WIDTH, hp, hs, Nat.mul_comm]
    · simp [drawBitStep, drawSpecStep, SCREEN_WIDTH, hp, hs, Nat.mul_comm]

/-- The bit loop of the source draw agrees with the spec-worded bit
loop. -/
theorem drawBits_agree (wrap : Bool) (x y row : Nat) :
    ∀ (bits : List Nat) (screen : Nat → Nat) (c : Bool),
      drawBitsGo wrap x y row bits (screen, if c then 1 else 0) =
        ((drawSpecBits wrap x y row bits (screen, c)).1,
         if (drawSpecBits wrap x y row bits (screen, c)).2 then 1 else 0) := by
  intro bits
  induction bits with
  | nil => intro screen c; rfl
  | cons b rest ih =>
    intro screen c
    cases wrap
    · simp only [drawBitsGo, drawSpecBits, SCREEN_WIDTH, Bool.false_eq_true,
        if_false]
      by_cases hb : 64 ≤ x + b
      · rw [if_pos hb, if_pos hb]
      · rw [if_neg hb, if_neg hb, drawStep_agree, ih]
    · simp only [drawBitsGo, drawSpecBits, SCREEN_WIDTH, if_true]
      rw [drawStep_agree, ih]

/-- The row loop of the source draw agrees with the spec-worded row
loop. -/
theorem drawRows_agree (wrap : Bool) (index : Nat) (memory : Nat → Nat)
    (x0 y0 : Nat) :
    ∀ (rows : List Nat) (screen : Nat → Nat) (c : Bool),
      drawRowsGo wrap index memory x0 y0 rows (screen, if c then 1 else 0) =
        (drawSpecRows wrap index memory x0 y0 rows (screen, c)).map
          (fun p => (p.1, if p.2 then 1 else 0)) := by
  intro rows
  induction rows with
  | nil => intro screen c; rfl
  | cons r rest ih =>
    intro screen c
    cases wrap
    · simp only [drawRowsGo, drawSpecRows, SCREEN_HEIGHT, MEMORY_SIZE,
        Bool.false_eq_true, if_false]
      by_cases hy : 32 ≤ y0 + r
      · rw [if_pos hy, if_pos hy]
        rfl
      · rw [if_neg hy, if_neg hy]
        by_cases ha : 4096 ≤ index + r
        · rw [if_pos ha, if_pos ha]
          rfl
        · rw [if_neg ha, if_neg ha, drawBits_agree, ih]
    · simp only [drawRowsGo, drawSpecRows, SCREEN_HEIGHT, MEMORY_SIZE, if_true]
      by_cases ha : 4096 ≤ index + r
      · rw [if_pos ha, if_pos ha]
        rfl
      · rw [if_neg ha, if_neg ha, drawBits_agree, ih]

/-- C4: the source draw handler computes exactly what the claim/spec
wording of `DXYN` prescribes — sprite start `(Vx mod 64, Vy mod 32)`,
per-pixel XOR with wrap/clip by `draw_wrap`, collision latched into `VF`
as 1/0, `should_draw` raised, and failure with the
program-counter-out-of-bounds error on a sprite-row address ≥ 4096. -/
theorem c4_draw_refines (s : EmulatorState) (opcode : Nat)
    (quirks : Chip8Quirks) :
    handle_opcode_dxyn_draw s opcode quirks = drawSpecDxyn s opcode quirks := by
  unfold handle_opcode_dxyn_draw drawSpecDxyn
  simp only [SCREEN_WIDTH, SCREEN_HEIGHT]
  have hAgree := drawRows_agree quirks.draw_wrap s.index s.memory
    (s.registers (x_register_index opcode) % 64)
    (s.registers (y_register_index opcode) % 32)
    (List.range (nibble_n opcode)) s.screen_buffer false
  norm_num at hAgree
  rw [hAgree]
  cases hspec : drawSpecRows quirks.draw_wrap s.index s.memory
      (s.registers (x_register_index opcode) % 64)
      (s.registers (y_register_index opcode) % 32)
      (List.range (nibble_n opcode)) (s.screen_buffer, false) with
  | error e => rfl
  | ok p =>
    obtain ⟨screen, collision⟩ := p
    rfl
